import Mathlib

/-!
Shallow embedding of the pacemaker action-graph ordering resolver
(`action_flags_for_ordering`, `convert_non_atomic_uuid`, `rsc_expand_action`,
`graph_update_action`, `update_action`) together with theorems checking the
natural-language specification against it.

Bitmasks of the C source (`enum pe_action_flags`, `enum pe_ordering`,
`enum pe_graph_flags`, resource flags) are embedded as records of `Bool`
fields, one field per bit the resolver reads or writes.  Pointer graphs are
embedded as index-based stores: actions, resources and edges are rows of
lists held in an environment (immutable attributes) and a mutable state
(flags, counters, edge kinds, adjacency lists).  The recursive fixed-point
driver `update_action` is given an explicit fuel argument and returns
`Option`, with `none` meaning the fuel ran out.
-/

/-- The bits of `enum pe_action_flags` that the ordering resolver reads or
writes: `pe_action_optional`, `pe_action_runnable`, `pe_action_pseudo`,
`pe_action_print_always`, `pe_action_requires_any`. -/
structure ActionFlags where
  opt : Bool
  runnable : Bool
  pseudo : Bool
  printAlways : Bool
  requiresAny : Bool
deriving DecidableEq, Repr

/-- All-false action flag set. -/
def ActionFlags.zero : ActionFlags :=
  ⟨false, false, false, false, false⟩

/-- The resource flag bits the resolver reads or writes:
`pe_rsc_managed`, `pe_rsc_block`, `pe_rsc_notify`, `pe_rsc_reload`. -/
structure RscFlags where
  managed : Bool
  blocked : Bool
  notify : Bool
  reload : Bool
deriving DecidableEq, Repr

/-- The bits of `enum pe_ordering` (edge kinds); an edge may carry several. -/
structure OrderType where
  impliesThen : Bool
  impliesThenOnNode : Bool
  impliesFirst : Bool
  promotedImpliesFirst : Bool
  restart : Bool
  oneOrMore : Bool
  probe : Bool
  runnableLeft : Bool
  impliesFirstMigratable : Bool
  pseudoLeft : Bool
  optionalOrder : Bool
  asymmetrical : Bool
  impliesThenPrinted : Bool
  impliesFirstPrinted : Bool
  thenCancelsFirst : Bool
  sameNode : Bool
deriving DecidableEq, Repr

/-- `pe_order_none`: every bit clear. -/
def OrderType.noneK : OrderType :=
  ⟨false, false, false, false, false, false, false, false,
   false, false, false, false, false, false, false, false⟩

/-- An order type carrying exactly the `pe_order_implies_first` bit. -/
def OrderType.impliesFirstOnly : OrderType :=
  { OrderType.noneK with impliesFirst := true }

/-- An order type carrying exactly the `pe_order_one_or_more` bit. -/
def OrderType.oneOrMoreOnly : OrderType :=
  { OrderType.noneK with oneOrMore := true }

/-- An order type carrying exactly the `pe_order_probe` bit. -/
def OrderType.probeOnly : OrderType :=
  { OrderType.noneK with probe := true }

/-- An order type carrying exactly the `pe_order_restart` bit. -/
def OrderType.restartOnly : OrderType :=
  { OrderType.noneK with restart := true }

/-- An order type carrying exactly the two printed bits
`pe_order_implies_then_printed` and `pe_order_implies_first_printed`. -/
def OrderType.printedOnly : OrderType :=
  { OrderType.noneK with impliesThenPrinted := true, impliesFirstPrinted := true }

/-- An order type carrying exactly the `pe_order_same_node` bit. -/
def OrderType.sameNodeOnly : OrderType :=
  { OrderType.noneK with sameNode := true }

/-- The kind argument handed to the variant update hook; the evaluator passes
a single `enum pe_ordering` value here (`pe_order_implies_then`,
`pe_order_restart`, `pe_order_implies_first`,
`pe_order_promoted_implies_first`, `pe_order_one_or_more`,
`pe_order_runnable_left`, `pe_order_implies_first_migratable`,
`pe_order_pseudo_left`, `pe_order_optional`, `pe_order_asymmetrical`). -/
inductive HookKind where
  | impliesThen
  | restart
  | impliesFirst
  | promotedImpliesFirst
  | oneOrMore
  | runnableLeft
  | impliesFirstMigratable
  | pseudoLeft
  | optionalOrder
  | asymmetrical
deriving DecidableEq, Repr

/-- `enum pe_graph_flags` without `pe_graph_none`: the change bits
`pe_graph_updated_first`, `pe_graph_updated_then`, `pe_graph_disable`. -/
structure GraphChange where
  updatedFirst : Bool
  updatedThen : Bool
  disable : Bool
deriving DecidableEq, Repr

/-- `pe_graph_none`. -/
def GraphChange.noneC : GraphChange :=
  ⟨false, false, false⟩

/-- Bitwise or of two change-bit sets (`changed |= ...`). -/
def GraphChange.orC (a b : GraphChange) : GraphChange :=
  ⟨a.updatedFirst || b.updatedFirst, a.updatedThen || b.updatedThen,
   a.disable || b.disable⟩

/-- Resource variants, ordered `PRIMITIVE < GROUP < CLONE < BUNDLE`
(`pe_native < pe_group < pe_clone < pe_container`). -/
inductive Variant where
  | primitive
  | group
  | clone
  | bundle
deriving DecidableEq, Repr

/-- Numeric rank of a variant, used for the `rsc->variant < pe_group` and
`rsc->variant >= pe_group` comparisons. -/
def Variant.rank : Variant → Nat
  | .primitive => 0
  | .group => 1
  | .clone => 2
  | .bundle => 3

/-- The task vocabulary the uuid converter dispatches on
(`enum action_tasks`); `noAction` covers `no_action` and every value the
converter maps there. -/
inductive PcmkTask where
  | noAction
  | monitorRsc
  | stopRsc
  | stoppedRsc
  | startRsc
  | startedRsc
  | actionNotify
  | actionNotified
  | actionPromote
  | actionPromoted
  | actionDemote
  | actionDemoted
  | shutdownCrm
  | stonithNode
deriving DecidableEq, Repr

/-- Modelled from the spec: `text2task`, the task-name-to-enum map behind the
conversion table of the spec (start/stop/notify/promote/demote and their
post-completion names, plus monitor, shutdown and fence); unknown names map
to `noAction` as the converter's default branch does. -/
def text2task (s : String) : PcmkTask :=
  if s == "stop" then .stopRsc
  else if s == "stopped" then .stoppedRsc
  else if s == "start" then .startRsc
  else if s == "running" then .startedRsc
  else if s == "notify" then .actionNotify
  else if s == "notified" then .actionNotified
  else if s == "promote" then .actionPromote
  else if s == "promoted" then .actionPromoted
  else if s == "demote" then .actionDemote
  else if s == "demoted" then .actionDemoted
  else if s == "monitor" then .monitorRsc
  else if s == "do_shutdown" then .shutdownCrm
  else if s == "stonith" then .stonithNode
  else .noAction

/-- Modelled from the spec: `task2text`, inverse of `text2task` on the known
names. -/
def task2text : PcmkTask → String
  | .noAction => "no_action"
  | .monitorRsc => "monitor"
  | .stopRsc => "stop"
  | .stoppedRsc => "stopped"
  | .startRsc => "start"
  | .startedRsc => "running"
  | .actionNotify => "notify"
  | .actionNotified => "notified"
  | .actionPromote => "promote"
  | .actionPromoted => "promoted"
  | .actionDemote => "demote"
  | .actionDemoted => "demoted"
  | .shutdownCrm => "do_shutdown"
  | .stonithNode => "stonith"

/-- The `task--` step of `convert_non_atomic_uuid`: a post-completion task
falls back to its triggering task (the enum values are adjacent in C). -/
def PcmkTask.dec : PcmkTask → PcmkTask
  | .stoppedRsc => .stopRsc
  | .startedRsc => .startRsc
  | .actionNotified => .actionNotify
  | .actionPromoted => .actionPromote
  | .actionDemoted => .actionDemote
  | t => t

/-- The `task + 1` step of `convert_non_atomic_uuid`: a triggering task is
bumped to its post-completion peer. -/
def PcmkTask.succ : PcmkTask → PcmkTask
  | .stopRsc => .stoppedRsc
  | .startRsc => .startedRsc
  | .actionNotify => .actionNotified
  | .actionPromote => .actionPromoted
  | .actionDemote => .actionDemoted
  | t => t

/-- Lowercase a single ASCII character (for `pcmk__str_casei` comparison). -/
def lowerChar (c : Char) : Char :=
  if 65 ≤ c.toNat && c.toNat ≤ 90 then Char.ofNat (c.toNat + 32) else c

/-- Case-insensitive string equality, embedding `pcmk__str_eq` with
`pcmk__str_casei`. -/
def strCaseEq (a b : String) : Bool :=
  a.data.map lowerChar == b.data.map lowerChar

/-- Whether `p` is a leading segment of `l` (character lists). -/
def charsStart : List Char → List Char → Bool
  | [], _ => true
  | _ :: _, [] => false
  | a :: asx, b :: bs => a == b && charsStart asx bs

/-- Whether `p` occurs contiguously inside `l` (character lists); embeds
`strstr`. -/
def charsContain (p : List Char) : List Char → Bool
  | [] => charsStart p []
  | c :: rest => charsStart p (c :: rest) || charsContain p rest

/-- `strstr(s, "notify") != NULL` for a plain string component. -/
def strHasNotify (s : String) : Bool :=
  charsContain "notify".data s.data

/-- Modelled from the spec: the action uuid grammar of the external
interface, `<resource-id>_<task>_<interval-ms>` with the notify form
`<resource-id>_<notify-type>_notify_<task>_0` (`pcmk__notify_key`).  The
underscore-joined string is embedded as a structured value; `parse_op_key`
becomes projection of the `op` form and the key builders become the
constructors. -/
inductive Uuid where
  | op (rid : String) (task : String) (intervalMs : Nat)
  | notifyKey (rid : String) (ntype : String) (task : String)
deriving DecidableEq, Repr

/-- `strstr(uuid, "notify") != NULL` on the flattened uuid string.  The
separator `_` does not occur in `"notify"`, so a match cannot straddle a
component boundary, and the interval renders as digits; hence the check
reduces to a per-component substring test, and the notify-key form always
contains the literal `_notify_`. -/
def Uuid.hasNotify : Uuid → Bool
  | .op rid task _ => strHasNotify rid || strHasNotify task
  | .notifyKey _ _ _ => true

/-- `convert_non_atomic_uuid(old_uuid, rsc, allow_notify, ...)` without the
C memory management: returns the converted uuid, or the original when no
conversion applies.  `rscVariant` and `rscNotify` are the owning resource's
variant and `pe_rsc_notify` flag. -/
def convert_non_atomic_uuid (oldUuid : Uuid) (rscVariant : Variant)
    (rscNotify : Bool) (allowNotify : Bool) : Uuid :=
  if oldUuid.hasNotify then oldUuid
  else if rscVariant.rank < Variant.group.rank then oldUuid
  else
    match oldUuid with
    | .notifyKey _ _ _ => oldUuid
    | .op rid rawTask intervalMs =>
      if intervalMs > 0 then oldUuid
      else
        let task :=
          match text2task rawTask with
          | .stopRsc => PcmkTask.stopRsc
          | .startRsc => PcmkTask.startRsc
          | .actionNotify => PcmkTask.actionNotify
          | .actionPromote => PcmkTask.actionPromote
          | .actionDemote => PcmkTask.actionDemote
          | .stoppedRsc => PcmkTask.stoppedRsc.dec
          | .startedRsc => PcmkTask.startedRsc.dec
          | .actionNotified => PcmkTask.actionNotified.dec
          | .actionPromoted => PcmkTask.actionPromoted.dec
          | .actionDemoted => PcmkTask.actionDemoted.dec
          | _ => PcmkTask.noAction
        if task ≠ PcmkTask.noAction then
          if rscNotify && allowNotify then
            Uuid.notifyKey rid "confirmed-post" (task2text task.succ)
          else
            Uuid.op rid (task2text task.succ) 0
        else oldUuid

/-- Immutable attributes of an action (`pe_action_t` fields the resolver
never writes): uuid, task name, owning resource index, assigned node id. -/
structure ActInfo where
  uuid : Uuid
  task : String
  rsc : Option Nat
  node : Option Nat
deriving DecidableEq, Repr

/-- Default action row for out-of-range indices. -/
def ActInfo.default : ActInfo :=
  ⟨Uuid.op "" "" 0, "", none, none⟩

/-- Immutable attributes of a resource: variant, whether `running_on` is
non-empty, the node reported by the variant `location` callback with no node
and `current = FALSE`, the resource's own action list, and the parent
resource.  `location` and the action list stand for the variant-contract
callbacks of the spec's external interface, which are outside this
repository's source. -/
structure RscInfo where
  variant : Variant
  runningOn : Bool
  location : Option Nat
  actions : List Nat
  parent : Option Nat
deriving DecidableEq, Repr

/-- Default resource row for out-of-range indices. -/
def RscInfo.default : RscInfo :=
  ⟨Variant.primitive, false, none, [], none⟩

/-- The flag-and-counter part of the mutable state: per-action flags,
`runnable_before` and `required_runnable_before` counters, and per-resource
flags.  The variant update hook operates on exactly this part. -/
structure FlagState where
  aflags : List ActionFlags
  runBefore : List Nat
  reqBefore : List Nat
  rflags : List RscFlags
deriving DecidableEq, Repr

/-- One ordering edge: the `first` action it references and its current
kind bitmask (`pe_action_wrapper_t`). -/
structure EdgeRec where
  first : Nat
  otype : OrderType
deriving DecidableEq, Repr

/-- Default edge row for out-of-range indices. -/
def EdgeRec.default : EdgeRec :=
  ⟨0, OrderType.noneK⟩

/-- The whole mutable state of a pass: flags and counters, the edge pool,
and per-action predecessor (edge ids) and successor (action ids) lists.
`order_actions` appends to the pool and to the adjacency lists; the filter,
the probe rule and the expansion redirect overwrite an edge's kind with
`pe_order_none`. -/
structure DState where
  fl : FlagState
  edges : List EdgeRec
  preds : List (List Nat)
  afters : List (List Nat)
deriving DecidableEq, Repr

/-- Flags of action `a` in state `fs` (missing rows read as all-clear). -/
def FlagState.af (fs : FlagState) (a : Nat) : ActionFlags :=
  fs.aflags.getD a ActionFlags.zero

/-- Overwrite the flags of action `a`. -/
def FlagState.setAf (fs : FlagState) (a : Nat) (f : ActionFlags) : FlagState :=
  { fs with aflags := fs.aflags.set a f }

/-- `runnable_before` of action `a`. -/
def FlagState.rb (fs : FlagState) (a : Nat) : Nat :=
  fs.runBefore.getD a 0

/-- `required_runnable_before` of action `a`. -/
def FlagState.req (fs : FlagState) (a : Nat) : Nat :=
  fs.reqBefore.getD a 0

/-- Resource flags of resource `r` (missing rows read as all-clear). -/
def FlagState.rf (fs : FlagState) (r : Nat) : RscFlags :=
  fs.rflags.getD r ⟨false, false, false, false⟩

/-- The environment of a pass: immutable action and resource attributes,
the variant `action_flags` callback, and the variant `update_actions` hook.
The two callbacks embed the resource-dispatcher contract (`C3` in the spec);
their per-variant bodies live outside this repository's source, so the
resolver is verified for an arbitrary instantiation.  The hook receives the
first and then action ids, the node argument, the (possibly masked) first
flags, the mask, and the kind, and transforms the flag state, returning
change bits. -/
structure Env where
  acts : List ActInfo
  rscs : List RscInfo
  cb : Nat → Option Nat → FlagState → ActionFlags
  hook : Nat → Nat → Option Nat → ActionFlags → ActionFlags → HookKind →
    FlagState → GraphChange × FlagState

/-- Immutable attributes of action `a` in environment `env`. -/
def Env.act (env : Env) (a : Nat) : ActInfo :=
  env.acts.getD a ActInfo.default

/-- Immutable attributes of resource `r` in environment `env`. -/
def Env.rsc (env : Env) (r : Nat) : RscInfo :=
  env.rscs.getD r RscInfo.default

/-- Whether action `a`'s resource exists and is a clone
(`pe_rsc_is_clone`). -/
def Env.actRscIsClone (env : Env) (a : Nat) : Bool :=
  match (env.act a).rsc with
  | some r => (env.rsc r).variant == Variant.clone
  | none => false

/-- `first->rsc->running_on != NULL` (false when the action has no
resource; the C would dereference a null pointer there). -/
def Env.actRscRunning (env : Env) (a : Nat) : Bool :=
  match (env.act a).rsc with
  | some r => (env.rsc r).runningOn
  | none => false

/-- Resource flags of action `a`'s resource (all-clear when it has none). -/
def actRscFlags (env : Env) (fs : FlagState) (a : Nat) : RscFlags :=
  match (env.act a).rsc with
  | some r => fs.rf r
  | none => ⟨false, false, false, false⟩

/-- `action_flags_for_ordering(action, node)`: the flags relevant to
ordering.  For a non-resource action, the raw flags; otherwise the variant
callback's flags without a node; for a clone action with a peer node,
re-query with the node and restore `RUNNABLE` when the node-free flags had
it ("runnable anywhere"). -/
def action_flags_for_ordering (env : Env) (a : Nat) (node : Option Nat)
    (fs : FlagState) : ActionFlags :=
  match (env.act a).rsc with
  | none => fs.af a
  | some _ =>
    let flags := env.cb a none fs
    match node with
    | none => flags
    | some n =>
      if !(env.actRscIsClone a) then flags
      else
        let runnable := flags.runnable
        let flags2 := env.cb a (some n) fs
        if runnable && !flags2.runnable then
          { flags2 with runnable := true }
        else flags2

/-- Modelled from the spec: `find_first_action(rsc->actions, uuid, NULL,
NULL)` — the first action in the resource's action list whose uuid matches;
this helper lives outside this repository's source. -/
def find_first_action (env : Env) (actions : List Nat) (uuid : Uuid) :
    Option Nat :=
  actions.find? (fun b => (env.act b).uuid == uuid)

/-- The `notify` local of `rsc_expand_action`: notifications are allowed at
this scope when the resource is outermost, or is a clone directly inside a
bundle, and then follow the resource's `NOTIFY` flag. -/
def expandAllowNotify (env : Env) (fs : FlagState) (r : Nat) : Bool :=
  if (env.rsc r).parent == none ||
     ((env.rsc r).variant == Variant.clone &&
      (match (env.rsc r).parent with
       | some p => (env.rsc p).variant == Variant.bundle
       | none => false)) then
    (fs.rf r).notify
  else false

/-- The uuid `rsc_expand_action` looks up for action `a` on its resource
`r`: the converted uuid (equal to the original when no conversion
applies). -/
def expandedUuid (env : Env) (fs : FlagState) (a r : Nat) : Uuid :=
  convert_non_atomic_uuid (env.act a).uuid (env.rsc r).variant
    (fs.rf r).notify (expandAllowNotify env fs r)

/-- `rsc_expand_action(action)`: map a composite-resource action id to its
post-completion peer.  Returns the original id when the action has no
resource, the variant is below group, or the (possibly unconverted) uuid is
not found in the resource's action list (the non-fatal failure path). -/
def rsc_expand_action (env : Env) (fs : FlagState) (a : Nat) : Nat :=
  match (env.act a).rsc with
  | none => a
  | some r =>
    if (env.rsc r).variant.rank ≥ Variant.group.rank then
      match find_first_action env (env.rsc r).actions
          (expandedUuid env fs a r) with
      | some b => b
      | none => a
    else a

/-- Overwrite the kind of edge `eid` with `pe_order_none`, keeping its
`first` reference. -/
def setEdgeNone (s : DState) (eid : Nat) : DState :=
  { s with
    edges := s.edges.set eid
      { s.edges.getD eid EdgeRec.default with otype := OrderType.noneK } }

/-- The mask `pe_action_optional` as a flag set. -/
def optionalMask : ActionFlags :=
  { ActionFlags.zero with opt := true }

/-- The mask `pe_action_runnable` as a flag set. -/
def runnableMask : ActionFlags :=
  { ActionFlags.zero with runnable := true }

/-- The mask `pe_action_optional | pe_action_runnable` used by the restart
rule. -/
def restartMask : ActionFlags :=
  { ActionFlags.zero with opt := true, runnable := true }

/-- `flags & pe_action_optional`: keep only the optional bit. -/
def maskOptional (f : ActionFlags) : ActionFlags :=
  { ActionFlags.zero with opt := f.opt }

/-- `changed |= then->rsc->cmds->update_actions(...)`: run the variant
update hook on the flag state and fold its change bits in. -/
def applyHook (env : Env) (f t : Nat) (node : Option Nat)
    (flagsArg mask : ActionFlags) (kind : HookKind)
    (cs : GraphChange × DState) : GraphChange × DState :=
  let r := env.hook f t node flagsArg mask kind cs.2.fl
  (cs.1.orC r.1, { cs.2 with fl := r.2 })

/-- The `pe_order_implies_then_on_node` rewrite: drop the on-node bit, set
`pe_order_implies_then`, and substitute `first->node` for the peer node. -/
def onNodeRewrite (env : Env) (f : Nat) (ty : OrderType) (node : Option Nat) :
    OrderType × Option Nat :=
  if ty.impliesThenOnNode then
    ({ ty with impliesThenOnNode := false, impliesThen := true },
     (env.act f).node)
  else (ty, node)

/-- The `pe_order_implies_then` rule: delegate to the variant hook when
`then` has a resource (first flags masked to optional); otherwise, if
`first` is non-optional and `then` is optional, clear `then`'s optional
flag and record `UPDATED_THEN`. -/
def impliesThenBlock (env : Env) (f t : Nat) (node : Option Nat)
    (ff : ActionFlags) (ty : OrderType) (cs : GraphChange × DState) :
    GraphChange × DState :=
  if ty.impliesThen then
    if (env.act t).rsc.isSome then
      applyHook env f t node (maskOptional ff) optionalMask .impliesThen cs
    else if !ff.opt && (cs.2.fl.af t).opt then
      ({ cs.1 with updatedThen := true },
       { cs.2 with fl := cs.2.fl.setAf t { cs.2.fl.af t with opt := false } })
    else cs
  else cs

/-- The `pe_order_restart` rule: delegate to the variant hook (mask
`OPTIONAL | RUNNABLE`) when `then` has a resource. -/
def restartBlock (env : Env) (f t : Nat) (node : Option Nat)
    (ff : ActionFlags) (ty : OrderType) (cs : GraphChange × DState) :
    GraphChange × DState :=
  if ty.restart && (env.act t).rsc.isSome then
    applyHook env f t node ff restartMask .restart cs
  else cs

/-- The `pe_order_implies_first` rule: delegate to the variant hook of
`first`'s resource when it has one; otherwise, if `first` is effectively
non-optional and `first` is runnable, clear `first`'s runnable flag and
record `UPDATED_FIRST`. -/
def impliesFirstBlock (env : Env) (f t : Nat) (node : Option Nat)
    (ff : ActionFlags) (ty : OrderType) (cs : GraphChange × DState) :
    GraphChange × DState :=
  if ty.impliesFirst then
    if (env.act f).rsc.isSome then
      applyHook env f t node ff optionalMask .impliesFirst cs
    else if !ff.opt && (cs.2.fl.af f).runnable then
      ({ cs.1 with updatedFirst := true },
       { cs.2 with
         fl := cs.2.fl.setAf f { cs.2.fl.af f with runnable := false } })
    else cs
  else cs

/-- The `pe_order_promoted_implies_first` rule: variant hook only (first
flags masked to optional). -/
def promotedImpliesFirstBlock (env : Env) (f t : Nat) (node : Option Nat)
    (ff : ActionFlags) (ty : OrderType) (cs : GraphChange × DState) :
    GraphChange × DState :=
  if ty.promotedImpliesFirst && (env.act t).rsc.isSome then
    applyHook env f t node (maskOptional ff) optionalMask
      .promotedImpliesFirst cs
  else cs

/-- The `pe_order_one_or_more` fallback for a resource-less `then`:
increment `then->runnable_before` and, when it reaches
`then->required_runnable_before` and `then` is not yet runnable, set
`then`'s runnable flag; the Bool reports whether the flag was set. -/
def oneOrMoreFallback (t : Nat) (fs : FlagState) : Bool × FlagState :=
  let fs1 := { fs with runBefore := fs.runBefore.set t (fs.rb t + 1) }
  if fs1.rb t ≥ fs1.req t && !(fs1.af t).runnable then
    (true, fs1.setAf t { fs1.af t with runnable := true })
  else (false, fs1)

/-- The `pe_order_one_or_more` rule: delegate to the variant hook when
`then` has a resource; otherwise apply `oneOrMoreFallback` for a runnable
`first`, recording `UPDATED_THEN` when it set the runnable flag. -/
def oneOrMoreBlock (env : Env) (f t : Nat) (node : Option Nat)
    (ff : ActionFlags) (ty : OrderType) (cs : GraphChange × DState) :
    GraphChange × DState :=
  if ty.oneOrMore then
    if (env.act t).rsc.isSome then
      applyHook env f t node ff runnableMask .oneOrMore cs
    else if ff.runnable then
      let r := oneOrMoreFallback t cs.2.fl
      ((if r.1 then { cs.1 with updatedThen := true } else cs.1),
       { cs.2 with fl := r.2 })
    else cs
  else cs

/-- The `pe_order_probe` rule (guarded on `then` having a resource): when
`first` is effectively unrunnable and `first`'s resource is running
somewhere, disable this edge (both the local kind and the stored edge kind
become `pe_order_none`); otherwise delegate runnable propagation to the
variant hook with kind `pe_order_runnable_left`.  Returns the local kind
used by the remaining rules. -/
def probeBlock (env : Env) (f t : Nat) (node : Option Nat)
    (ff : ActionFlags) (eid : Nat) (ty : OrderType)
    (cs : GraphChange × DState) : OrderType × (GraphChange × DState) :=
  if (env.act t).rsc.isSome && ty.probe then
    if !ff.runnable && env.actRscRunning f then
      (OrderType.noneK,
       (cs.1,
        { cs.2 with
          edges := cs.2.edges.set eid
            { cs.2.edges.getD eid EdgeRec.default with
              otype := OrderType.noneK } }))
    else
      (ty, applyHook env f t node ff runnableMask .runnableLeft cs)
  else (ty, cs)

/-- The `pe_order_runnable_left` rule: delegate to the variant hook when
`then` has a resource; otherwise, if `first` is effectively unrunnable and
`then` is runnable, clear `then`'s runnable flag and record
`UPDATED_THEN`. -/
def runnableLeftBlock (env : Env) (f t : Nat) (node : Option Nat)
    (ff : ActionFlags) (ty : OrderType) (cs : GraphChange × DState) :
    GraphChange × DState :=
  if ty.runnableLeft then
    if (env.act t).rsc.isSome then
      applyHook env f t node ff runnableMask .runnableLeft cs
    else if !ff.runnable && (cs.2.fl.af t).runnable then
      ({ cs.1 with updatedThen := true },
       { cs.2 with
         fl := cs.2.fl.setAf t { cs.2.fl.af t with runnable := false } })
    else cs
  else cs

/-- The `pe_order_implies_first_migratable` rule: variant hook only. -/
def migratableBlock (env : Env) (f t : Nat) (node : Option Nat)
    (ff : ActionFlags) (ty : OrderType) (cs : GraphChange × DState) :
    GraphChange × DState :=
  if ty.impliesFirstMigratable && (env.act t).rsc.isSome then
    applyHook env f t node ff optionalMask .impliesFirstMigratable cs
  else cs

/-- The `pe_order_pseudo_left` rule: variant hook only. -/
def pseudoLeftBlock (env : Env) (f t : Nat) (node : Option Nat)
    (ff : ActionFlags) (ty : OrderType) (cs : GraphChange × DState) :
    GraphChange × DState :=
  if ty.pseudoLeft && (env.act t).rsc.isSome then
    applyHook env f t node ff optionalMask .pseudoLeft cs
  else cs

/-- The `pe_order_optional` rule: variant hook only. -/
def optionalOrderBlock (env : Env) (f t : Nat) (node : Option Nat)
    (ff : ActionFlags) (ty : OrderType) (cs : GraphChange × DState) :
    GraphChange × DState :=
  if ty.optionalOrder && (env.act t).rsc.isSome then
    applyHook env f t node ff runnableMask .optionalOrder cs
  else cs

/-- The `pe_order_asymmetrical` rule: variant hook only. -/
def asymmetricalBlock (env : Env) (f t : Nat) (node : Option Nat)
    (ff : ActionFlags) (ty : OrderType) (cs : GraphChange × DState) :
    GraphChange × DState :=
  if ty.asymmetrical && (env.act t).rsc.isSome then
    applyHook env f t node ff runnableMask .asymmetrical cs
  else cs

/-- The `pe_order_implies_then_printed` rule: when `first` is runnable (live
flags) and effectively non-optional, set `PRINT_ALWAYS` on `then` without
recording any change bit. -/
def impliesThenPrintedBlock (f t : Nat) (ff : ActionFlags) (ty : OrderType)
    (cs : GraphChange × DState) : GraphChange × DState :=
  if (cs.2.fl.af f).runnable && ty.impliesThenPrinted && !ff.opt then
    (cs.1,
     { cs.2 with fl := cs.2.fl.setAf t { cs.2.fl.af t with printAlways := true } })
  else cs

/-- The `pe_order_implies_first_printed` rule: when `then` is effectively
non-optional, set `PRINT_ALWAYS` on `first` without recording any change
bit. -/
def impliesFirstPrintedBlock (f t : Nat) (tf : ActionFlags) (ty : OrderType)
    (cs : GraphChange × DState) : GraphChange × DState :=
  if ty.impliesFirstPrinted && !tf.opt then
    (cs.1,
     { cs.2 with fl := cs.2.fl.setAf f { cs.2.fl.af f with printAlways := true } })
  else cs

/-- The blocked-unmanaged-stop special case: when the edge carries
`IMPLIES_THEN`, `IMPLIES_FIRST` or `RESTART`, `first` is a stop action of an
unmanaged, blocked resource and is not runnable, then a runnable `then`
loses its runnable flag and `UPDATED_THEN` is recorded. -/
def blockedStopBlock (env : Env) (f t : Nat) (ty : OrderType)
    (cs : GraphChange × DState) : GraphChange × DState :=
  if (ty.impliesThen || ty.impliesFirst || ty.restart)
      && (env.act f).rsc.isSome
      && strCaseEq (env.act f).task "stop"
      && !(actRscFlags env cs.2.fl f).managed
      && (actRscFlags env cs.2.fl f).blocked
      && !(cs.2.fl.af f).runnable then
    if (cs.2.fl.af t).runnable then
      ({ cs.1 with updatedThen := true },
       { cs.2 with
         fl := cs.2.fl.setAf t { cs.2.fl.af t with runnable := false } })
    else cs
  else cs

/-- The rules evaluated before the probe rule, in source order. -/
def evalPre (env : Env) (f t : Nat) (node : Option Nat) (ff : ActionFlags)
    (ty : OrderType) (s0 : DState) : GraphChange × DState :=
  let cs := (GraphChange.noneC, s0)
  let cs := impliesThenBlock env f t node ff ty cs
  let cs := restartBlock env f t node ff ty cs
  let cs := impliesFirstBlock env f t node ff ty cs
  let cs := promotedImpliesFirstBlock env f t node ff ty cs
  oneOrMoreBlock env f t node ff ty cs

/-- The rules evaluated after the probe rule, in source order, against the
probe-adjusted local kind. -/
def evalPost (env : Env) (f t : Nat) (node : Option Nat)
    (ff tf : ActionFlags) (ty : OrderType) (cs0 : GraphChange × DState) :
    GraphChange × DState :=
  let cs := runnableLeftBlock env f t node ff ty cs0
  let cs := migratableBlock env f t node ff ty cs
  let cs := pseudoLeftBlock env f t node ff ty cs
  let cs := optionalOrderBlock env f t node ff ty cs
  let cs := asymmetricalBlock env f t node ff ty cs
  let cs := impliesThenPrintedBlock f t ff ty cs
  let cs := impliesFirstPrintedBlock f t tf ty cs
  blockedStopBlock env f t ty cs

/-- The body of `graph_update_action` with the edge's kind bitmask `ty0`
made explicit.  Applies each kind's rule in source order to the edge `eid`,
threading the local kind (rewritten by the on-node rule and cleared by the
probe-disable branch) and the accumulated change bits. -/
def graph_update_action_core (env : Env) (f t : Nat) (node0 : Option Nat)
    (ff tf : ActionFlags) (eid : Nat) (ty0 : OrderType) (s0 : DState) :
    GraphChange × DState :=
  let tn := onNodeRewrite env f ty0 node0
  let ty := tn.1
  let node := tn.2
  let pr := probeBlock env f t node ff eid ty (evalPre env f t node ff ty s0)
  evalPost env f t node ff tf pr.1 pr.2

/-- `graph_update_action(first, then, node, first_flags, then_flags, order,
data_set)`: the edge evaluator, reading the edge's current kind from the
state. -/
def graph_update_action (env : Env) (f t : Nat) (node0 : Option Nat)
    (ff tf : ActionFlags) (eid : Nat) (s0 : DState) :
    GraphChange × DState :=
  graph_update_action_core env f t node0 ff tf eid
    ((s0.edges.getD eid EdgeRec.default).otype) s0

/-- The group-start node fix-up: when an action is a group's `start`,
substitute the location reported by the variant callback for its node. -/
def fixNode (env : Env) (a : Nat) : Option Nat :=
  match (env.act a).rsc with
  | some r =>
    if (env.rsc r).variant == Variant.group && strCaseEq (env.act a).task "start"
    then (env.rsc r).location
    else (env.act a).node
  | none => (env.act a).node

/-- Walk `c`'s parent chain, looking for `p` strictly above `c`. -/
def isAncestorAux (env : Env) (p : Nat) : Nat → Nat → Bool
  | 0, _ => false
  | fuel + 1, c =>
    match (env.rsc c).parent with
    | some q => q == p || isAncestorAux env p fuel q
    | none => false

/-- Modelled from the spec: `is_ancestor(maybe_parent, resource)` of the
resource-variant contract, which lives outside this repository's source:
whether `p` is a strict ancestor of `c` in the composite tree. -/
def is_ancestor (env : Env) (p c : Nat) : Bool :=
  isAncestorAux env p (env.rscs.length + 1) c

/-- Modelled from the spec: `order_actions(first, then, kind)` — idempotent
edge attachment, outside this repository's source: add a predecessor edge on
`then` referencing `first` with the given kind only if no such edge exists;
return whether a new edge was created.  The new edge is appended to the edge
pool, to `then`'s predecessor list and to `first`'s successor list; existing
edges are never modified. -/
def order_actions (env : Env) (f t : Nat) (ty : OrderType) (s : DState) :
    Bool × DState :=
  let plist := s.preds.getD t []
  if plist.any (fun eid =>
      let e := s.edges.getD eid EdgeRec.default
      e.first == f && e.otype == ty) then
    (false, s)
  else
    let eid := s.edges.length
    (true,
     { s with
       edges := s.edges ++ [⟨f, ty⟩],
       preds := s.preds.set t (plist ++ [eid]),
       afters := s.afters.set f ((s.afters.getD f []) ++ [t]) })

/-- Modelled from the spec: `pcmk__block_colocated_starts`, the out-of-core
notification of the colocation subsystem; it is outside the resolver's state
and is embedded as the identity. -/
def blockColocatedStarts (env : Env) (t : Nat) (s : DState) : DState :=
  s

/-- The `THEN_CANCELS_FIRST` handling of the driver loop: when `first` has a
resource, the edge carries the cancel bit and `then` is non-optional, make
the raw `first` optional; when its task is `reload-agent`, also clear the
resource's `RELOAD` flag. -/
def cancelStep (env : Env) (t fRaw : Nat) (ty : OrderType) (s : DState) :
    DState :=
  if (env.act fRaw).rsc.isSome && ty.thenCancelsFirst && !(s.fl.af t).opt then
    let s1 := { s with fl := s.fl.setAf fRaw { s.fl.af fRaw with opt := true } }
    if (env.act fRaw).task == "reload-agent" then
      match (env.act fRaw).rsc with
      | some r =>
        { s1 with
          fl := { s1.fl with
            rflags := s1.fl.rflags.set r { s1.fl.rf r with reload := false } } }
      | none => s1
    else s1
  else s

/-- The expansion guard of the driver loop: both endpoints have resources,
the resources differ, and `then`'s resource is not an ancestor of
`first`'s. -/
def expandGuard (env : Env) (t fRaw : Nat) : Bool :=
  match (env.act fRaw).rsc, (env.act t).rsc with
  | some rf, some rt => rf ≠ rt && !(is_ancestor env rt rf)
  | _, _ => false

/-- Result of one iteration of the driver's edge loop: the accumulated
change bits, the new state, the (possibly expanded) first action, and
whether the same-node filter fired (`continue`). -/
structure IterOut where
  changed : GraphChange
  st : DState
  firstId : Nat
  filtered : Bool
deriving Repr

/-- One iteration of the edge loop of `update_action` over predecessor edge
index `i` of `then`, without the re-processing recursion: group-start node
fix-up, same-node filter, clearing of `UPDATED_FIRST`, cancellation,
expansion (redirected through `order_actions` when it produced a new
action), evaluation by `graph_update_action`, and the `DISABLE`
application. -/
def edge_iter (env : Env) (t : Nat) (changed0 : GraphChange) (i : Nat)
    (s0 : DState) : IterOut :=
  let eid := (s0.preds.getD t []).getD i 0
  let e := s0.edges.getD eid EdgeRec.default
  let fRaw := e.first
  let fNode := fixNode env fRaw
  let tNode := fixNode env t
  if e.otype.sameNode && fNode.isSome && tNode.isSome && fNode ≠ tNode then
    ⟨changed0,
     { s0 with edges := s0.edges.set eid { e with otype := OrderType.noneK } },
     fRaw, true⟩
  else
    let changed := { changed0 with updatedFirst := false }
    let s := cancelStep env t fRaw e.otype s0
    let first := if expandGuard env t fRaw then rsc_expand_action env s.fl fRaw
      else fRaw
    let ffl := action_flags_for_ordering env first tNode s.fl
    let tfl := action_flags_for_ordering env t fNode s.fl
    let cs :=
      if first == fRaw then
        let r := graph_update_action env first t (env.act t).node ffl tfl eid s
        (changed.orC r.1, r.2)
      else
        let r := order_actions env first t e.otype s
        if r.1 then ({ changed with updatedThen := true, disable := true }, r.2)
        else (changed, r.2)
    if cs.1.disable then
      ⟨{ cs.1 with disable := false },
       { cs.2 with
         edges := cs.2.edges.set eid
           { cs.2.edges.getD eid EdgeRec.default with
             otype := OrderType.noneK } },
       first, false⟩
    else ⟨cs.1, cs.2, first, false⟩

/-- The `REQUIRES_ANY` preamble of `update_action`: reset
`runnable_before` to 0, default `required_runnable_before` to 1 when it is
0, and clear the runnable flag (the one-or-more rule restores it). -/
def requiresAnyPreamble (t : Nat) (fs : FlagState) : FlagState :=
  let fs1 := { fs with runBefore := fs.runBefore.set t 0 }
  let fs2 := if fs1.req t == 0 then { fs1 with reqBefore := fs1.reqBefore.set t 1 }
    else fs1
  fs2.setAf t { fs2.af t with runnable := false }

/-- Selector for the single fuelled recursion implementing the mutually
recursive driver (`update_action`, its successor walks, and the
predecessor-edge loop). -/
inductive DriveMode where
  | upd (t : Nat)
  | aft (a i : Nat)
  | edg (t i : Nat) (ch : GraphChange)

/-- The fuelled recursion behind the driver.  `upd t` is
`update_action(t)`; `aft a i` re-processes the successors of `a` from
index `i`; `edg t i ch` is the predecessor-edge loop of `t` from index `i`
with accumulated change bits `ch`.  The `GraphChange` component of the
result is meaningful only for `edg`. -/
def drive (env : Env) : Nat → DriveMode → DState → Option (GraphChange × DState)
  | 0, _, _ => none
  | fuel + 1, DriveMode.upd t, s0 =>
    let last := s0.fl.af t
    let s1 := if last.requiresAny then { s0 with fl := requiresAnyPreamble t s0.fl }
      else s0
    match drive env fuel (DriveMode.edg t 0 GraphChange.noneC) s1 with
    | none => none
    | some (changed1, s2) =>
      let changed :=
        if (s2.fl.af t).requiresAny then
          if last = s2.fl.af t then { changed1 with updatedThen := false }
          else { changed1 with updatedThen := true }
        else changed1
      if changed.updatedThen then
        let s2b := if last.runnable && !(s2.fl.af t).runnable then
            blockColocatedStarts env t s2
          else s2
        match drive env fuel (DriveMode.upd t) s2b with
        | none => none
        | some p3 => drive env fuel (DriveMode.aft t 0) p3.2
      else some (GraphChange.noneC, s2)
  | fuel + 1, DriveMode.aft a i, s =>
    if i < (s.afters.getD a []).length then
      match drive env fuel (DriveMode.upd ((s.afters.getD a []).getD i 0)) s with
      | none => none
      | some p2 => drive env fuel (DriveMode.aft a (i + 1)) p2.2
    else some (GraphChange.noneC, s)
  | fuel + 1, DriveMode.edg t i ch, s =>
    if i < (s.preds.getD t []).length then
      let o := edge_iter env t ch i s
      if o.filtered then drive env fuel (DriveMode.edg t (i + 1) o.changed) o.st
      else if o.changed.updatedFirst then
        match drive env fuel (DriveMode.aft o.firstId 0) o.st with
        | none => none
        | some p2 =>
          match drive env fuel (DriveMode.upd o.firstId) p2.2 with
          | none => none
          | some p3 => drive env fuel (DriveMode.edg t (i + 1) o.changed) p3.2
      else drive env fuel (DriveMode.edg t (i + 1) o.changed) o.st
    else some (ch, s)

/-- `update_action(then, data_set)`: the fixed-point driver for one action,
with explicit fuel.  Snapshot the flags, run the `REQUIRES_ANY` preamble,
walk the predecessor edges, apply the `REQUIRES_ANY` postamble override of
`UPDATED_THEN`, and when `then` changed re-process it and its successors.
`none` means the fuel ran out before the recursion finished. -/
def update_action (env : Env) (fuel t : Nat) (s : DState) : Option DState :=
  (drive env fuel (DriveMode.upd t) s).map (fun p => p.2)

/-- Re-process every successor of action `a` (the `actions_after` walks of
`update_action`), from index `i` on, over the live successor list. -/
def loop_afters (env : Env) (fuel a i : Nat) (s : DState) : Option DState :=
  (drive env fuel (DriveMode.aft a i) s).map (fun p => p.2)

/-- The predecessor-edge loop of `update_action` from index `i` on, over
the live predecessor list: run `edge_iter` and, when it recorded
`UPDATED_FIRST`, re-process `first`'s successors and then `first` before
moving to the next edge. -/
def loop_edges (env : Env) (fuel t i : Nat) (ch : GraphChange) (s : DState) :
    Option (GraphChange × DState) :=
  drive env fuel (DriveMode.edg t i ch) s

/-- Out of fuel, the driver returns `none`. -/
theorem update_action_zero (env : Env) (t : Nat) (s : DState) :
    update_action env 0 t s = none :=
  rfl

/-- Out of fuel, the successor walk returns `none`. -/
theorem loop_afters_zero (env : Env) (a i : Nat) (s : DState) :
    loop_afters env 0 a i s = none :=
  rfl

/-- Out of fuel, the edge loop returns `none`. -/
theorem loop_edges_zero (env : Env) (t i : Nat) (ch : GraphChange)
    (s : DState) : loop_edges env 0 t i ch s = none :=
  rfl

/-- Step equation of `update_action`, mirroring the C body. -/
theorem update_action_succ (env : Env) (fuel t : Nat) (s0 : DState) :
    update_action env (fuel + 1) t s0 =
      (let last := s0.fl.af t
       let s1 := if last.requiresAny then
           { s0 with fl := requiresAnyPreamble t s0.fl }
         else s0
       match loop_edges env fuel t 0 GraphChange.noneC s1 with
       | none => none
       | some (changed1, s2) =>
         let changed :=
           if (s2.fl.af t).requiresAny then
             if last = s2.fl.af t then { changed1 with updatedThen := false }
             else { changed1 with updatedThen := true }
           else changed1
         if changed.updatedThen then
           let s2b := if last.runnable && !(s2.fl.af t).runnable then
               blockColocatedStarts env t s2
             else s2
           match update_action env fuel t s2b with
           | none => none
           | some s3 => loop_afters env fuel t 0 s3
         else some s2) := by
  show (drive env (fuel + 1) (DriveMode.upd t) s0).map (fun p => p.2) = _
  rw [drive]
  simp only [loop_edges, update_action, loop_afters]
  cases drive env fuel (DriveMode.edg t 0 GraphChange.noneC)
      (if (s0.fl.af t).requiresAny then
        { s0 with fl := requiresAnyPreamble t s0.fl } else s0) with
  | none => rfl
  | some p =>
    obtain ⟨ch1, s2⟩ := p
    simp only [Option.map_some]
    by_cases hC : ((if (s2.fl.af t).requiresAny then
        (if s0.fl.af t = s2.fl.af t then { ch1 with updatedThen := false }
         else { ch1 with updatedThen := true })
      else ch1) : GraphChange).updatedThen = true
    · rw [if_pos hC, if_pos hC]
      cases drive env fuel (DriveMode.upd t)
          (if (s0.fl.af t).runnable && !(s2.fl.af t).runnable then
            blockColocatedStarts env t s2 else s2) with
      | none => rfl
      | some p3 => rfl
    · rw [if_neg hC, if_neg hC]
      rfl

/-- Step equation of the successor walk. -/
theorem loop_afters_succ (env : Env) (fuel a i : Nat) (s : DState) :
    loop_afters env (fuel + 1) a i s =
      (if i < (s.afters.getD a []).length then
        match update_action env fuel ((s.afters.getD a []).getD i 0) s with
        | none => none
        | some s2 => loop_afters env fuel a (i + 1) s2
      else some s) := by
  show (drive env (fuel + 1) (DriveMode.aft a i) s).map (fun p => p.2) = _
  rw [drive]
  simp only [update_action, loop_afters]
  by_cases hi : i < (s.afters.getD a []).length
  · rw [if_pos hi, if_pos hi]
    cases drive env fuel (DriveMode.upd ((s.afters.getD a []).getD i 0)) s with
    | none => rfl
    | some p2 => rfl
  · rw [if_neg hi, if_neg hi]
    rfl

/-- Step equation of the edge loop, mirroring the C body. -/
theorem loop_edges_succ (env : Env) (fuel t i : Nat) (ch : GraphChange)
    (s : DState) :
    loop_edges env (fuel + 1) t i ch s =
      (if i < (s.preds.getD t []).length then
        let o := edge_iter env t ch i s
        if o.filtered then loop_edges env fuel t (i + 1) o.changed o.st
        else if o.changed.updatedFirst then
          match loop_afters env fuel o.firstId 0 o.st with
          | none => none
          | some s2 =>
            match update_action env fuel o.firstId s2 with
            | none => none
            | some s3 => loop_edges env fuel t (i + 1) o.changed s3
          else loop_edges env fuel t (i + 1) o.changed o.st
      else some (ch, s)) := by
  show drive env (fuel + 1) (DriveMode.edg t i ch) s = _
  rw [drive]
  simp only [loop_edges, update_action, loop_afters]
  by_cases hi : i < (s.preds.getD t []).length
  · rw [if_pos hi, if_pos hi]
    by_cases hf : (edge_iter env t ch i s).filtered = true
    · rw [if_pos hf, if_pos hf]
    · rw [if_neg hf, if_neg hf]
      by_cases hu : (edge_iter env t ch i s).changed.updatedFirst = true
      · rw [if_pos hu, if_pos hu]
        cases ha : drive env fuel
            (DriveMode.aft (edge_iter env t ch i s).firstId 0)
            (edge_iter env t ch i s).st with
        | none => rfl
        | some p2 =>
          simp only [Option.map_some]
          cases hb : drive env fuel
              (DriveMode.upd (edge_iter env t ch i s).firstId) p2.2 with
          | none => simp [hb]
          | some p3 => simp [hb]
      · rw [if_neg hu, if_neg hu]
  · rw [if_neg hi, if_neg hi]

/-! Helper lemmas about list stores and flag states. -/

theorem getD_set_self {α : Type} (l : List α) (i : Nat) (a d : α)
    (h : i < l.length) : (l.set i a).getD i d = a := by
  simp [List.getD_eq_getElem?_getD, List.getElem?_set_self h]

theorem getD_set_ne {α : Type} (l : List α) (i j : Nat) (a d : α)
    (h : i ≠ j) : (l.set i a).getD j d = l.getD j d := by
  simp [List.getD_eq_getElem?_getD, List.getElem?_set_ne h]

theorem getD_set_out {α : Type} (l : List α) (i : Nat) (a d : α)
    (h : l.length ≤ i) : (l.set i a).getD i d = l.getD i d := by
  rw [List.set_eq_of_length_le h]

theorem getD_prefix {α : Type} {l₁ l₂ : List α} (h : l₁ <+: l₂) {i : Nat}
    (hi : i < l₁.length) (d : α) : l₂.getD i d = l₁.getD i d := by
  obtain ⟨t, rfl⟩ := h
  simp [List.getD_eq_getElem?_getD, List.getElem?_append_left hi]

theorem getD_append_left {α : Type} (l₁ l₂ : List α) (j : Nat) (d : α)
    (h : j < l₁.length) : (l₁ ++ l₂).getD j d = l₁.getD j d := by
  simp [List.getD_eq_getElem?_getD, List.getElem?_append_left h]

theorem af_setAf_self (fs : FlagState) (a : Nat) (f : ActionFlags)
    (h : a < fs.aflags.length) : (fs.setAf a f).af a = f := by
  show (fs.aflags.set a f).getD a ActionFlags.zero = f
  exact getD_set_self _ _ _ _ h

theorem af_setAf_ne (fs : FlagState) (a b : Nat) (f : ActionFlags)
    (h : a ≠ b) : (fs.setAf a f).af b = fs.af b := by
  show (fs.aflags.set a f).getD b ActionFlags.zero = fs.aflags.getD b ActionFlags.zero
  exact getD_set_ne _ _ _ _ _ h

theorem orC_noneC_left (c : GraphChange) : GraphChange.noneC.orC c = c := by
  cases c
  simp [GraphChange.noneC, GraphChange.orC]

/-- C3: `effective_flags(a, peer_node)`: an action with no resource reports
its raw flags; with a resource but no peer node, or a non-clone resource,
the node-free callback flags; a clone action with a peer node reports the
node-specific callback flags with `RUNNABLE` restored whenever the
node-free flags had it, so a clone action runnable somewhere but not on the
peer node still reports `RUNNABLE`. -/
theorem C3_action_flags_for_ordering (env : Env) (a : Nat) (fs : FlagState) :
    ((env.act a).rsc = none →
      ∀ node, action_flags_for_ordering env a node fs = fs.af a)
    ∧ ((env.act a).rsc.isSome →
      action_flags_for_ordering env a none fs = env.cb a none fs)
    ∧ ((env.act a).rsc.isSome → env.actRscIsClone a = false →
      ∀ n, action_flags_for_ordering env a (some n) fs = env.cb a none fs)
    ∧ ((env.act a).rsc.isSome → env.actRscIsClone a = true →
      ∀ n, action_flags_for_ordering env a (some n) fs =
        (if (env.cb a none fs).runnable && !(env.cb a (some n) fs).runnable
         then { env.cb a (some n) fs with runnable := true }
         else env.cb a (some n) fs))
    ∧ ((env.act a).rsc.isSome → env.actRscIsClone a = true →
      (env.cb a none fs).runnable = true →
      ∀ n, (action_flags_for_ordering env a (some n) fs).runnable = true) := by
  refine ⟨?_, ?_, ?_, ?_, ?_⟩
  · intro h node
    simp [action_flags_for_ordering, h]
  · intro h
    match hr : (env.act a).rsc with
    | none => simp [hr] at h
    | some r => simp [action_flags_for_ordering, hr]
  · intro h hc n
    match hr : (env.act a).rsc with
    | none => simp [hr] at h
    | some r => simp [action_flags_for_ordering, hr, hc]
  · intro h hc n
    match hr : (env.act a).rsc with
    | none => simp [hr] at h
    | some r => simp [action_flags_for_ordering, hr, hc]
  · intro h hc hrun n
    match hr : (env.act a).rsc with
    | none => simp [hr] at h
    | some r =>
      simp only [action_flags_for_ordering, hr, hc]
      by_cases h2 : (env.cb a (some n) fs).runnable
      · simp [hrun, h2]
      · simp [hrun, h2]

/-- Witness for C3 at a concrete clone configuration. -/
theorem C3_witness :
    (let env : Env :=
      { acts := [⟨Uuid.op "c" "start" 0, "start", some 0, none⟩],
        rscs := [⟨Variant.clone, true, none, [0], none⟩],
        cb := fun _ node _ =>
          match node with
          | none => { ActionFlags.zero with runnable := true }
          | some _ => ActionFlags.zero,
        hook := fun _ _ _ _ _ _ fs => (GraphChange.noneC, fs) }
     let fs : FlagState := ⟨[ActionFlags.zero], [0], [0], [⟨true, false, false, false⟩]⟩
     (action_flags_for_ordering env 0 (some 7) fs).runnable = true) := by
  have h := (C3_action_flags_for_ordering
    { acts := [⟨Uuid.op "c" "start" 0, "start", some 0, none⟩],
      rscs := [⟨Variant.clone, true, none, [0], none⟩],
      cb := fun _ node _ =>
        match node with
        | none => { ActionFlags.zero with runnable := true }
        | some _ => ActionFlags.zero,
      hook := fun _ _ _ _ _ _ fs => (GraphChange.noneC, fs) }
    0 ⟨[ActionFlags.zero], [0], [0], [⟨true, false, false, false⟩]⟩).2.2.2.2
  exact h (by decide) (by decide) (by decide) 7

/-- Trivial variant flag callback for concrete witnesses. -/
def cbZero : Nat → Option Nat → FlagState → ActionFlags :=
  fun _ _ _ => ActionFlags.zero

/-- Trivial variant update hook for concrete witnesses. -/
def hookZero : Nat → Nat → Option Nat → ActionFlags → ActionFlags →
    HookKind → FlagState → GraphChange × FlagState :=
  fun _ _ _ _ _ _ fs => (GraphChange.noneC, fs)

/-- C10: a `PROBE` edge whose `then` action has no resource is a complete
no-op in the evaluator: no flag of either endpoint is mutated, the edge is
not disabled and no change bits are recorded, even when `first` is
unrunnable and `first`'s resource is running somewhere. -/
theorem C10_probe_no_resource_noop (env : Env) (f t : Nat) (node : Option Nat)
    (ff tf : ActionFlags) (eid : Nat) (s : DState)
    (hty : (s.edges.getD eid EdgeRec.default).otype = OrderType.probeOnly)
    (ht : (env.act t).rsc = none) :
    graph_update_action env f t node ff tf eid s = (GraphChange.noneC, s) := by
  unfold graph_update_action
  rw [hty]
  simp [graph_update_action_core, evalPre, evalPost, ht, onNodeRewrite, impliesThenBlock,
    restartBlock, impliesFirstBlock, promotedImpliesFirstBlock, oneOrMoreBlock,
    probeBlock, runnableLeftBlock, migratableBlock, pseudoLeftBlock,
    optionalOrderBlock, asymmetricalBlock, impliesThenPrintedBlock,
    impliesFirstPrintedBlock, blockedStopBlock, OrderType.probeOnly,
    OrderType.noneK]

/-- Concrete environment for the C10 witness: an unrunnable first on a
running resource, a resource-less `then`, and a pure `PROBE` edge. -/
def envW10 : Env :=
  { acts := [⟨Uuid.op "a" "monitor" 0, "monitor", some 0, none⟩,
             ⟨Uuid.op "b" "start" 0, "start", none, none⟩],
    rscs := [⟨Variant.primitive, true, none, [0], none⟩],
    cb := cbZero, hook := hookZero }

/-- Concrete state for the C10 witness. -/
def sW10 : DState :=
  { fl := ⟨[ActionFlags.zero, { ActionFlags.zero with runnable := true }],
           [0, 0], [0, 0], [⟨true, false, false, false⟩]⟩,
    edges := [⟨0, OrderType.probeOnly⟩],
    preds := [[], [0]], afters := [[], []] }

/-- Witness for C10 at a concrete input. -/
theorem C10_witness :
    graph_update_action envW10 0 1 none ActionFlags.zero ActionFlags.zero 0 sW10
      = (GraphChange.noneC, sW10) :=
  C10_probe_no_resource_noop envW10 0 1 none ActionFlags.zero ActionFlags.zero 0
    sW10 (by decide) (by decide)

/-- C9: on an edge carrying exactly the two printed kinds, the evaluator
sets `PRINT_ALWAYS` on `then` when `first` is runnable and effectively
non-optional, sets `PRINT_ALWAYS` on `first` when `then` is effectively
non-optional, reports no change bits at all, and mutates nothing else. -/
theorem C9_printed_rules (env : Env) (f t : Nat) (node : Option Nat)
    (ff tf : ActionFlags) (eid : Nat) (s : DState)
    (hty : (s.edges.getD eid EdgeRec.default).otype = OrderType.printedOnly)
    (hft : f ≠ t) :
    graph_update_action env f t node ff tf eid s =
      (GraphChange.noneC,
       { s with fl :=
          (let fl1 := if (s.fl.af f).runnable && !ff.opt
            then s.fl.setAf t { s.fl.af t with printAlways := true }
            else s.fl
           if !tf.opt
           then fl1.setAf f { s.fl.af f with printAlways := true }
           else fl1) }) := by
  unfold graph_update_action
  rw [hty]
  by_cases c1 : (s.fl.af f).runnable && !ff.opt
  · by_cases c2 : !tf.opt
    · simp [graph_update_action_core, evalPre, evalPost, onNodeRewrite, impliesThenBlock,
        restartBlock, impliesFirstBlock, promotedImpliesFirstBlock,
        oneOrMoreBlock, probeBlock, runnableLeftBlock, migratableBlock,
        pseudoLeftBlock, optionalOrderBlock, asymmetricalBlock,
        impliesThenPrintedBlock, impliesFirstPrintedBlock, blockedStopBlock,
        OrderType.printedOnly, OrderType.noneK, c1, c2,
        af_setAf_ne _ _ _ _ (Ne.symm hft)]
    · simp [graph_update_action_core, evalPre, evalPost, onNodeRewrite, impliesThenBlock,
        restartBlock, impliesFirstBlock, promotedImpliesFirstBlock,
        oneOrMoreBlock, probeBlock, runnableLeftBlock, migratableBlock,
        pseudoLeftBlock, optionalOrderBlock, asymmetricalBlock,
        impliesThenPrintedBlock, impliesFirstPrintedBlock, blockedStopBlock,
        OrderType.printedOnly, OrderType.noneK, c1, c2]
  · by_cases c2 : !tf.opt
    · simp [graph_update_action_core, evalPre, evalPost, onNodeRewrite, impliesThenBlock,
        restartBlock, impliesFirstBlock, promotedImpliesFirstBlock,
        oneOrMoreBlock, probeBlock, runnableLeftBlock, migratableBlock,
        pseudoLeftBlock, optionalOrderBlock, asymmetricalBlock,
        impliesThenPrintedBlock, impliesFirstPrintedBlock, blockedStopBlock,
        OrderType.printedOnly, OrderType.noneK, c1, c2]
    · simp [graph_update_action_core, evalPre, evalPost, onNodeRewrite, impliesThenBlock,
        restartBlock, impliesFirstBlock, promotedImpliesFirstBlock,
        oneOrMoreBlock, probeBlock, runnableLeftBlock, migratableBlock,
        pseudoLeftBlock, optionalOrderBlock, asymmetricalBlock,
        impliesThenPrintedBlock, impliesFirstPrintedBlock, blockedStopBlock,
        OrderType.printedOnly, OrderType.noneK, c1, c2]

/-- Concrete environment for the C9 witness. -/
def envW9 : Env :=
  { acts := [⟨Uuid.op "a" "start" 0, "start", none, none⟩,
             ⟨Uuid.op "b" "start" 0, "start", none, none⟩],
    rscs := [], cb := cbZero, hook := hookZero }

/-- Concrete state for the C9 witness. -/
def sW9 : DState :=
  { fl := ⟨[{ ActionFlags.zero with runnable := true }, ActionFlags.zero],
           [0, 0], [0, 0], []⟩,
    edges := [⟨0, OrderType.printedOnly⟩],
    preds := [[], [0]], afters := [[], []] }

/-- Witness for C9 at a concrete input: both printed rules fire, flags gain
only `PRINT_ALWAYS`, and no change bits are reported. -/
theorem C9_witness :
    graph_update_action envW9 0 1 none
      { ActionFlags.zero with runnable := true } ActionFlags.zero 0 sW9 =
      (GraphChange.noneC,
       { sW9 with fl :=
          (let fl1 := if (sW9.fl.af 0).runnable && !ActionFlags.zero.opt
            then sW9.fl.setAf 1 { sW9.fl.af 1 with printAlways := true }
            else sW9.fl
           if !ActionFlags.zero.opt
           then fl1.setAf 0 { sW9.fl.af 0 with printAlways := true }
           else fl1) }) :=
  C9_printed_rules envW9 0 1 none
    { ActionFlags.zero with runnable := true } ActionFlags.zero 0 sW9
    (by decide) (by decide)

/-- C5: on an edge carrying exactly `PROBE` whose `then` has a resource:
when `first` is effectively unrunnable and `first`'s resource is running
somewhere, the edge's kind is set to `pe_order_none` and no flag (in
particular `then`'s `RUNNABLE`) is touched and no change bits are reported;
otherwise the variant update hook is invoked with kind
`pe_order_runnable_left` and its result is the evaluator's result. -/
theorem C5_probe_rule (env : Env) (f t : Nat) (node : Option Nat)
    (ff tf : ActionFlags) (eid : Nat) (s : DState)
    (hty : (s.edges.getD eid EdgeRec.default).otype = OrderType.probeOnly)
    (ht : (env.act t).rsc.isSome = true)
    (hf : (env.act f).rsc.isSome = true) :
    graph_update_action env f t node ff tf eid s =
      (if !ff.runnable && env.actRscRunning f then
        (GraphChange.noneC, setEdgeNone s eid)
      else
        ((env.hook f t node ff runnableMask HookKind.runnableLeft s.fl).1,
         { s with
           fl := (env.hook f t node ff runnableMask HookKind.runnableLeft
             s.fl).2 })) := by
  unfold graph_update_action
  rw [hty]
  by_cases c : !ff.runnable && env.actRscRunning f
  · simp [graph_update_action_core, evalPre, evalPost, onNodeRewrite, impliesThenBlock,
      restartBlock, impliesFirstBlock, promotedImpliesFirstBlock,
      oneOrMoreBlock, probeBlock, runnableLeftBlock, migratableBlock,
      pseudoLeftBlock, optionalOrderBlock, asymmetricalBlock,
      impliesThenPrintedBlock, impliesFirstPrintedBlock, blockedStopBlock,
      setEdgeNone, OrderType.probeOnly, OrderType.noneK, c, ht, hty]
  · simp [graph_update_action_core, evalPre, evalPost, onNodeRewrite, impliesThenBlock,
      restartBlock, impliesFirstBlock, promotedImpliesFirstBlock,
      oneOrMoreBlock, probeBlock, runnableLeftBlock, migratableBlock,
      pseudoLeftBlock, optionalOrderBlock, asymmetricalBlock,
      impliesThenPrintedBlock, impliesFirstPrintedBlock, blockedStopBlock,
      applyHook, orC_noneC_left,
      OrderType.probeOnly, OrderType.noneK, c, ht]

/-- Concrete environment for the C5 witness: a probe edge whose `first`
resource is running and whose `first` is unrunnable. -/
def envW5 : Env :=
  { acts := [⟨Uuid.op "a" "monitor" 0, "monitor", some 0, none⟩,
             ⟨Uuid.op "b" "start" 0, "start", some 1, none⟩],
    rscs := [⟨Variant.primitive, true, none, [0], none⟩,
             ⟨Variant.primitive, false, none, [1], none⟩],
    cb := cbZero, hook := hookZero }

/-- Concrete state for the C5 witness. -/
def sW5 : DState :=
  { fl := ⟨[ActionFlags.zero, { ActionFlags.zero with runnable := true }],
           [0, 0], [0, 0], [⟨true, false, false, false⟩, ⟨true, false, false, false⟩]⟩,
    edges := [⟨0, OrderType.probeOnly⟩],
    preds := [[], [0]], afters := [[], []] }

/-- Witness for C5 at a concrete input: the probe-cancel branch fires. -/
theorem C5_witness :
    graph_update_action envW5 0 1 none ActionFlags.zero ActionFlags.zero 0 sW5
      = (if !ActionFlags.zero.runnable && envW5.actRscRunning 0 then
          (GraphChange.noneC, setEdgeNone sW5 0)
        else
          ((envW5.hook 0 1 none ActionFlags.zero runnableMask
              HookKind.runnableLeft sW5.fl).1,
           { sW5 with
             fl := (envW5.hook 0 1 none ActionFlags.zero runnableMask
               HookKind.runnableLeft sW5.fl).2 })) :=
  C5_probe_rule envW5 0 1 none ActionFlags.zero ActionFlags.zero 0 sW5
    (by decide) (by decide) (by decide)

/-- Concrete environment for the C1 counterexample: a pure `IMPLIES_FIRST`
edge between two resource-less actions. -/
def envX1 : Env :=
  { acts := [⟨Uuid.op "a" "stop" 0, "stop", none, none⟩,
             ⟨Uuid.op "b" "start" 0, "start", none, none⟩],
    rscs := [], cb := cbZero, hook := hookZero }

/-- Concrete state for the C1 counterexample: `first` runnable, `then`
optional. -/
def sX1 : DState :=
  { fl := ⟨[{ ActionFlags.zero with runnable := true },
            { ActionFlags.zero with opt := true, runnable := true }],
           [0, 0], [0, 0], []⟩,
    edges := [⟨0, OrderType.impliesFirstOnly⟩],
    preds := [[], [0]], afters := [[], []] }

/-- Counterexample to C1 as stated: on a pure `IMPLIES_FIRST` edge with a
resource-less `first`, although `then` is optional (both its effective and
its stored flags), the evaluator still clears `RUNNABLE` on `first`,
because the source conditions on `first`'s effective optionality
(`first_flags`), not on `then`'s. -/
theorem C1_counterexample :
    ((sX1.fl.af 1).opt = true)
    ∧ ((sX1.fl.af 0).runnable = true)
    ∧ (((graph_update_action envX1 0 1 none
          { ActionFlags.zero with runnable := true }
          { ActionFlags.zero with opt := true, runnable := true }
          0 sX1).2.fl.af 0).runnable = false)
    ∧ ((graph_update_action envX1 0 1 none
          { ActionFlags.zero with runnable := true }
          { ActionFlags.zero with opt := true, runnable := true }
          0 sX1).2.fl.af 0 ≠ sX1.fl.af 0) := by
  decide

/-- C1 as amended: on an edge carrying exactly `IMPLIES_FIRST` whose
`first` has no resource, the rule conditions on `first`'s effective
optionality rather than `then`'s: if `first` is effectively non-optional
and `first` is runnable, the evaluator clears `RUNNABLE` on `first` and
records `UPDATED_FIRST`; otherwise (in particular whenever `first` is
effectively optional, whatever `then`'s optionality) `first`'s flags are
left unchanged and no change bits are recorded. -/
theorem C1_implies_first_fallback (env : Env) (f t : Nat) (node : Option Nat)
    (ff tf : ActionFlags) (eid : Nat) (s : DState)
    (hty : (s.edges.getD eid EdgeRec.default).otype = OrderType.impliesFirstOnly)
    (hf : (env.act f).rsc = none) :
    graph_update_action env f t node ff tf eid s =
      (if !ff.opt && (s.fl.af f).runnable then
        ({ GraphChange.noneC with updatedFirst := true },
         { s with fl := s.fl.setAf f { s.fl.af f with runnable := false } })
      else (GraphChange.noneC, s)) := by
  unfold graph_update_action
  rw [hty]
  by_cases c : !ff.opt && (s.fl.af f).runnable
  · simp [graph_update_action_core, evalPre, evalPost, onNodeRewrite, impliesThenBlock,
      restartBlock, impliesFirstBlock, promotedImpliesFirstBlock,
      oneOrMoreBlock, probeBlock, runnableLeftBlock, migratableBlock,
      pseudoLeftBlock, optionalOrderBlock, asymmetricalBlock,
      impliesThenPrintedBlock, impliesFirstPrintedBlock, blockedStopBlock,
      OrderType.impliesFirstOnly, OrderType.noneK, c, hf]
  · simp [graph_update_action_core, evalPre, evalPost, onNodeRewrite, impliesThenBlock,
      restartBlock, impliesFirstBlock, promotedImpliesFirstBlock,
      oneOrMoreBlock, probeBlock, runnableLeftBlock, migratableBlock,
      pseudoLeftBlock, optionalOrderBlock, asymmetricalBlock,
      impliesThenPrintedBlock, impliesFirstPrintedBlock, blockedStopBlock,
      OrderType.impliesFirstOnly, OrderType.noneK, c, hf]

/-- Witness for the amended C1 at a concrete input (the same configuration
as the counterexample: the rule fires because `first_flags` is
non-optional). -/
theorem C1_witness :
    graph_update_action envX1 0 1 none
      { ActionFlags.zero with runnable := true }
      { ActionFlags.zero with opt := true, runnable := true } 0 sX1 =
      (if !({ ActionFlags.zero with runnable := true } : ActionFlags).opt
          && (sX1.fl.af 0).runnable then
        ({ GraphChange.noneC with updatedFirst := true },
         { sX1 with fl := sX1.fl.setAf 0 { sX1.fl.af 0 with runnable := false } })
      else (GraphChange.noneC, sX1)) :=
  C1_implies_first_fallback envX1 0 1 none
    { ActionFlags.zero with runnable := true }
    { ActionFlags.zero with opt := true, runnable := true } 0 sX1
    (by decide) (by decide)

/-- C6: blocked unmanaged stop.  First part: whenever the edge kind carries
`IMPLIES_THEN`, `IMPLIES_FIRST` or `RESTART`, `first` is a stop action of
an unmanaged, blocked resource and is not runnable, the special-case rule
clears `then`'s `RUNNABLE` and records `UPDATED_THEN` when `then` is
runnable, and changes nothing when it is not.  Second part, end to end on
the evaluator: on an edge carrying exactly `RESTART` with a resource-less
`then`, under the same conditions a runnable `then` ends the evaluation
with `RUNNABLE` cleared and `UPDATED_THEN` reported. -/
theorem C6_blocked_unmanaged_stop :
    (∀ (env : Env) (f t : Nat) (ty : OrderType) (ch : GraphChange)
      (s : DState),
      (ty.impliesThen || ty.impliesFirst || ty.restart) = true →
      (env.act f).rsc.isSome = true →
      strCaseEq (env.act f).task "stop" = true →
      (actRscFlags env s.fl f).managed = false →
      (actRscFlags env s.fl f).blocked = true →
      (s.fl.af f).runnable = false →
      blockedStopBlock env f t ty (ch, s) =
        (if (s.fl.af t).runnable then
          ({ ch with updatedThen := true },
           { s with fl := s.fl.setAf t { s.fl.af t with runnable := false } })
        else (ch, s)))
    ∧ (∀ (env : Env) (f t : Nat) (node : Option Nat) (ff tf : ActionFlags)
      (eid : Nat) (s : DState),
      (s.edges.getD eid EdgeRec.default).otype = OrderType.restartOnly →
      (env.act t).rsc = none →
      (env.act f).rsc.isSome = true →
      strCaseEq (env.act f).task "stop" = true →
      (actRscFlags env s.fl f).managed = false →
      (actRscFlags env s.fl f).blocked = true →
      (s.fl.af f).runnable = false →
      (s.fl.af t).runnable = true →
      t < s.fl.aflags.length →
      ((graph_update_action env f t node ff tf eid s).1.updatedThen = true
       ∧ ((graph_update_action env f t node ff tf eid s).2.fl.af t).runnable
          = false)) := by
  constructor
  · intro env f t ty ch s hk hrsc hstop hman hbl hfr
    simp [blockedStopBlock, hk, hrsc, hstop, hman, hbl, hfr]
  · intro env f t node ff tf eid s hty ht hrsc hstop hman hbl hfr htr hlen
    unfold graph_update_action
    rw [hty]
    have hres : graph_update_action_core env f t node ff tf eid
        OrderType.restartOnly s =
        ({ GraphChange.noneC with updatedThen := true },
         { s with fl := s.fl.setAf t { s.fl.af t with runnable := false } }) := by
      simp [graph_update_action_core, evalPre, evalPost, onNodeRewrite, impliesThenBlock,
        restartBlock, impliesFirstBlock, promotedImpliesFirstBlock,
        oneOrMoreBlock, probeBlock, runnableLeftBlock, migratableBlock,
        pseudoLeftBlock, optionalOrderBlock, asymmetricalBlock,
        impliesThenPrintedBlock, impliesFirstPrintedBlock, blockedStopBlock,
        OrderType.restartOnly, OrderType.noneK, ht, hrsc, hstop, hman, hbl,
        hfr, htr]
    rw [hres]
    exact ⟨rfl, by simp [af_setAf_self _ _ _ hlen]⟩

/-- Concrete environment for the C6 witness: an unmanaged, blocked resource
whose stop action is unrunnable, and a `RESTART` edge to a resource-less
start. -/
def envW6 : Env :=
  { acts := [⟨Uuid.op "a" "stop" 0, "stop", some 0, none⟩,
             ⟨Uuid.op "b" "start" 0, "start", none, none⟩],
    rscs := [⟨Variant.primitive, true, none, [0], none⟩],
    cb := cbZero, hook := hookZero }

/-- Concrete state for the C6 witness. -/
def sW6 : DState :=
  { fl := ⟨[ActionFlags.zero, { ActionFlags.zero with runnable := true }],
           [0, 0], [0, 0], [⟨false, true, false, false⟩]⟩,
    edges := [⟨0, OrderType.restartOnly⟩],
    preds := [[], [0]], afters := [[], []] }

/-- Witness for C6 at a concrete input: both conjuncts instantiated. -/
theorem C6_witness :
    (blockedStopBlock envW6 0 1 OrderType.restartOnly (GraphChange.noneC, sW6)
      = (if (sW6.fl.af 1).runnable then
          ({ GraphChange.noneC with updatedThen := true },
           { sW6 with
             fl := sW6.fl.setAf 1 { sW6.fl.af 1 with runnable := false } })
        else (GraphChange.noneC, sW6)))
    ∧ ((graph_update_action envW6 0 1 none ActionFlags.zero ActionFlags.zero
          0 sW6).1.updatedThen = true
       ∧ ((graph_update_action envW6 0 1 none ActionFlags.zero ActionFlags.zero
          0 sW6).2.fl.af 1).runnable = false) :=
  ⟨C6_blocked_unmanaged_stop.1 envW6 0 1 OrderType.restartOnly
    GraphChange.noneC sW6 (by decide) (by decide) (by decide) (by decide)
    (by decide) (by decide),
   C6_blocked_unmanaged_stop.2 envW6 0 1 none ActionFlags.zero
    ActionFlags.zero 0 sW6 (by decide) (by decide) (by decide) (by decide)
    (by decide) (by decide) (by decide) (by decide) (by decide)⟩

/-- A uuid whose task component is already a post-completion name converts
to itself when notifications are not in effect. -/
theorem convert_post_self (rid tk : String) (iv : Nat) (v : Variant)
    (nfy an : Bool)
    (hpost : tk = "stopped" ∨ tk = "running" ∨ tk = "notified"
      ∨ tk = "promoted" ∨ tk = "demoted")
    (hna : (nfy && an) = false) :
    convert_non_atomic_uuid (Uuid.op rid tk iv) v nfy an
      = Uuid.op rid tk iv := by
  by_cases h1 : (Uuid.op rid tk iv).hasNotify
  · simp [convert_non_atomic_uuid, h1]
  · by_cases h2 : v.rank < Variant.group.rank
    · simp [convert_non_atomic_uuid, h1, h2]
    · by_cases h3 : iv > 0
      · simp [convert_non_atomic_uuid, h1, h2, h3]
      · have h0 : iv = 0 := by omega
        subst h0
        rcases hpost with rfl | rfl | rfl | rfl | rfl <;>
          simp [convert_non_atomic_uuid, h1, h2, h3, hna,
            show text2task "stopped" = PcmkTask.stoppedRsc from by decide,
            show text2task "running" = PcmkTask.startedRsc from by decide,
            show text2task "notified" = PcmkTask.actionNotified from by decide,
            show text2task "promoted" = PcmkTask.actionPromoted from by decide,
            show text2task "demoted" = PcmkTask.actionDemoted from by decide,
            PcmkTask.dec, PcmkTask.succ, task2text]

/-- The uuid converter is idempotent: converting a converted uuid with the
same resource attributes returns it unchanged. -/
theorem convert_idem (u : Uuid) (v : Variant) (nfy an : Bool) :
    convert_non_atomic_uuid (convert_non_atomic_uuid u v nfy an) v nfy an
      = convert_non_atomic_uuid u v nfy an := by
  by_cases h1 : u.hasNotify
  · simp [convert_non_atomic_uuid, h1]
  · by_cases h2 : v.rank < Variant.group.rank
    · simp [convert_non_atomic_uuid, h1, h2]
    · match u with
      | .notifyKey r n t => simp [Uuid.hasNotify] at h1
      | .op rid task iv =>
        have hparts : strHasNotify rid = false ∧ strHasNotify task = false := by
          simpa [Uuid.hasNotify] using h1
        obtain ⟨hrid, htask⟩ := hparts
        by_cases h3 : iv > 0
        · simp [convert_non_atomic_uuid, Uuid.hasNotify, hrid, htask, h2, h3]
        · have h0 : iv = 0 := by omega
          subst h0
          by_cases hna : (nfy && an) = true
          · -- notify form: the converted uuid contains `notify`, hence stable
            match ht : text2task task with
            | .noAction | .monitorRsc | .shutdownCrm | .stonithNode =>
              simp [convert_non_atomic_uuid, Uuid.hasNotify, hrid, htask, h2,
                ht]
            | .stopRsc | .startRsc | .actionNotify | .actionPromote
            | .actionDemote | .stoppedRsc | .startedRsc | .actionNotified
            | .actionPromoted | .actionDemoted =>
              simp [convert_non_atomic_uuid, Uuid.hasNotify, hrid, htask, h2,
                ht, hna, PcmkTask.dec, PcmkTask.succ]
          · have hna' : (nfy && an) = false := by
              revert hna
              cases nfy <;> cases an <;> simp
            -- plain post form: stable by the post-name roundtrip
            match ht : text2task task with
            | .noAction | .monitorRsc | .shutdownCrm | .stonithNode =>
              simp [convert_non_atomic_uuid, Uuid.hasNotify, hrid, htask, h2,
                ht]
            | .stopRsc | .startRsc | .actionNotify | .actionPromote
            | .actionDemote | .stoppedRsc | .startedRsc | .actionNotified
            | .actionPromoted | .actionDemoted =>
              rw [show convert_non_atomic_uuid (Uuid.op rid task 0) v nfy an
                  = Uuid.op rid (task2text ((text2task task).dec).succ) 0 from by
                simp [convert_non_atomic_uuid, Uuid.hasNotify, hrid, htask,
                  h2, ht, hna', PcmkTask.dec, PcmkTask.succ]]
              · exact convert_post_self rid _ 0 v nfy an (by
                  rw [ht]
                  simp [PcmkTask.dec, PcmkTask.succ, task2text]) hna'

/-- Well-formedness of the action lists of resources: every action listed
by a resource names that resource as its owner (`find_first_action`
searches `rsc->actions`, whose members belong to `rsc`). -/
def rscActionsOwned (env : Env) : Bool :=
  (List.range env.rscs.length).all (fun r =>
    ((env.rsc r).actions).all (fun b => (env.act b).rsc == some r))

/-- Unfolding of `rscActionsOwned`. -/
theorem rscActionsOwned_spec (env : Env) (h : rscActionsOwned env = true)
    {r b : Nat} (hr : r < env.rscs.length)
    (hb : b ∈ (env.rsc r).actions) : (env.act b).rsc = some r := by
  have h1 := List.all_eq_true.mp h r (List.mem_range.mpr hr)
  have h2 := List.all_eq_true.mp h1 b hb
  exact beq_iff_eq.mp h2

/-- Concrete environment for the C7 counterexample: a notify-enabled group
with a `running` pseudo-action and its confirmed-post notify sibling. -/
def envX7 : Env :=
  { acts := [⟨Uuid.op "g" "start" 0, "start", some 0, none⟩,
             ⟨Uuid.notifyKey "g" "confirmed-post" "running", "running",
              some 0, none⟩,
             ⟨Uuid.op "g" "running" 0, "running", some 0, none⟩],
    rscs := [⟨Variant.group, false, none, [0, 1, 2], none⟩],
    cb := cbZero, hook := hookZero }

/-- Flag state for the C7 counterexample: the group's `NOTIFY` flag is
set. -/
def fsX7 : FlagState :=
  { aflags := [ActionFlags.zero, ActionFlags.zero, ActionFlags.zero],
    runBefore := [0, 0, 0], reqBefore := [0, 0, 0],
    rflags := [⟨true, false, true, false⟩] }

/-- Counterexample to C7 as stated: action 2 has the post-completion task
`running` (uuid `g_running_0`), yet expanding it on a notify-enabled group
returns a different action (the `confirmed-post` notify sibling, action 1),
so an action whose task is already a post-completion name is not always
returned unchanged. -/
theorem C7_counterexample :
    (envX7.act 2).task = "running"
    ∧ (envX7.act 2).uuid = Uuid.op "g" "running" 0
    ∧ rsc_expand_action envX7 fsX7 2 = 1
    ∧ rsc_expand_action envX7 fsX7 2 ≠ 2 := by
  decide

/-- C7 as amended: expansion is idempotent as a function — expanding the
result of an expansion returns it unchanged (given that listed actions
belong to their resource) — and an action whose uuid task component is
already a post-completion name is returned unchanged provided its
resource's `NOTIFY` flag is off and the action is the first match for its
own uuid; with `NOTIFY` enabled it may instead map to the confirmed-post
notify sibling, which is then itself a fixed point. -/
theorem C7_expansion_idem :
    (∀ (env : Env) (fs : FlagState) (a : Nat),
      rscActionsOwned env = true →
      rsc_expand_action env fs (rsc_expand_action env fs a)
        = rsc_expand_action env fs a)
    ∧ (∀ (env : Env) (fs : FlagState) (a r : Nat) (rid tk : String) (iv : Nat),
      (env.act a).rsc = some r →
      (env.act a).uuid = Uuid.op rid tk iv →
      (tk = "stopped" ∨ tk = "running" ∨ tk = "notified"
        ∨ tk = "promoted" ∨ tk = "demoted") →
      (fs.rf r).notify = false →
      find_first_action env (env.rsc r).actions (env.act a).uuid = some a →
      rsc_expand_action env fs a = a) := by
  constructor
  · intro env fs a hwf
    cases hr : (env.act a).rsc with
    | none =>
      have e1 : rsc_expand_action env fs a = a := by
        simp [rsc_expand_action, hr]
      rw [e1]
      exact e1
    | some r =>
      by_cases hv : (env.rsc r).variant.rank ≥ Variant.group.rank
      · cases hfind : find_first_action env (env.rsc r).actions
            (expandedUuid env fs a r) with
        | none =>
          have e1 : rsc_expand_action env fs a = a := by
            simp [rsc_expand_action, hr, hv, hfind]
          rw [e1]
          exact e1
        | some b =>
          have e1 : rsc_expand_action env fs a = b := by
            simp [rsc_expand_action, hr, hv, hfind]
          have hrlen : r < env.rscs.length := by
            by_contra hc
            have hdef : env.rsc r = RscInfo.default := by
              show env.rscs.getD r RscInfo.default = RscInfo.default
              exact List.getD_eq_default _ _ (by omega)
            rw [hdef] at hfind
            simp [find_first_action, RscInfo.default] at hfind
          have hfind' : ((env.rsc r).actions).find?
              (fun c => (env.act c).uuid == expandedUuid env fs a r)
              = some b := hfind
          have hmem : b ∈ (env.rsc r).actions :=
            List.mem_of_find?_eq_some hfind'
          have hub : (env.act b).uuid = expandedUuid env fs a r := by
            have hp := List.find?_some hfind'
            simpa using hp
          have hrb : (env.act b).rsc = some r :=
            rscActionsOwned_spec env hwf hrlen hmem
          have hubu : expandedUuid env fs b r = expandedUuid env fs a r := by
            unfold expandedUuid
            rw [hub]
            exact convert_idem _ _ _ _
          have e2 : rsc_expand_action env fs b = b := by
            simp [rsc_expand_action, hrb, hv, hubu, hfind]
          rw [e1]
          exact e2
      · have e1 : rsc_expand_action env fs a = a := by
          simp [rsc_expand_action, hr, hv]
        rw [e1]
        exact e1
  · intro env fs a r rid tk iv hr hu hpost hn hfn
    by_cases hv : (env.rsc r).variant.rank ≥ Variant.group.rank
    · have heq : expandedUuid env fs a r = (env.act a).uuid := by
        unfold expandedUuid
        rw [hu, hn]
        exact convert_post_self rid tk iv _ false _ hpost (by simp)
      simp [rsc_expand_action, hr, hv, heq, hfn]
    · simp [rsc_expand_action, hr, hv]

/-- Flag state for the C7 witness with `NOTIFY` off. -/
def fsX7b : FlagState :=
  { fsX7 with rflags := [⟨true, false, false, false⟩] }

/-- Witness for the amended C7: idempotence at the concrete notify-enabled
configuration, and the notify-off fixed point for the post-completion
action. -/
theorem C7_witness :
    (rsc_expand_action envX7 fsX7 (rsc_expand_action envX7 fsX7 0)
      = rsc_expand_action envX7 fsX7 0)
    ∧ rsc_expand_action envX7 fsX7b 2 = 2 :=
  ⟨C7_expansion_idem.1 envX7 fsX7 0 (by decide),
   C7_expansion_idem.2 envX7 fsX7b 2 0 "g" "running" 0 (by decide) (by decide)
     (by decide) (by decide) (by decide)⟩

/-- C8: the expansion failure path is non-fatal.  When the uuid computed
for a composite-resource action is not found in the owning resource's
action list, expansion returns the original action unchanged; expansion is
total, always returning either the original action or a member of the
owning resource's action list; and when no conversion applies (the
converted uuid equals the original) and the action is the first match for
its own uuid, expansion returns the original action. -/
theorem C8_expansion_failure :
    (∀ (env : Env) (fs : FlagState) (a r : Nat),
      (env.act a).rsc = some r →
      find_first_action env (env.rsc r).actions (expandedUuid env fs a r)
        = none →
      rsc_expand_action env fs a = a)
    ∧ (∀ (env : Env) (fs : FlagState) (a : Nat),
      rsc_expand_action env fs a = a
      ∨ (∃ r, (env.act a).rsc = some r
          ∧ rsc_expand_action env fs a ∈ (env.rsc r).actions))
    ∧ (∀ (env : Env) (fs : FlagState) (a r : Nat),
      (env.act a).rsc = some r →
      expandedUuid env fs a r = (env.act a).uuid →
      find_first_action env (env.rsc r).actions (env.act a).uuid = some a →
      rsc_expand_action env fs a = a) := by
  refine ⟨?_, ?_, ?_⟩
  · intro env fs a r hr hfind
    by_cases hv : (env.rsc r).variant.rank ≥ Variant.group.rank
    · simp [rsc_expand_action, hr, hv, hfind]
    · simp [rsc_expand_action, hr, hv]
  · intro env fs a
    cases hr : (env.act a).rsc with
    | none => exact Or.inl (by simp [rsc_expand_action, hr])
    | some r =>
      by_cases hv : (env.rsc r).variant.rank ≥ Variant.group.rank
      · cases hfind : find_first_action env (env.rsc r).actions
            (expandedUuid env fs a r) with
        | none => exact Or.inl (by simp [rsc_expand_action, hr, hv, hfind])
        | some b =>
          refine Or.inr ⟨r, rfl, ?_⟩
          have hfind' : ((env.rsc r).actions).find?
              (fun c => (env.act c).uuid == expandedUuid env fs a r)
              = some b := hfind
          have e1 : rsc_expand_action env fs a = b := by
            simp [rsc_expand_action, hr, hv, hfind]
          rw [e1]
          exact List.mem_of_find?_eq_some hfind'
      · exact Or.inl (by simp [rsc_expand_action, hr, hv])
  · intro env fs a r hr heq hfn
    by_cases hv : (env.rsc r).variant.rank ≥ Variant.group.rank
    · simp [rsc_expand_action, hr, hv, heq, hfn]
    · simp [rsc_expand_action, hr, hv]

/-- Concrete environment for the C8 witness: a group whose `running` target
is missing from its action list, plus a non-expandable monitor action. -/
def envW8 : Env :=
  { acts := [⟨Uuid.op "g" "start" 0, "start", some 0, none⟩,
             ⟨Uuid.op "g" "monitor" 0, "monitor", some 0, none⟩],
    rscs := [⟨Variant.group, false, none, [0, 1], none⟩],
    cb := cbZero, hook := hookZero }

/-- Flag state for the C8 witness. -/
def fsW8 : FlagState :=
  { aflags := [ActionFlags.zero, ActionFlags.zero],
    runBefore := [0, 0], reqBefore := [0, 0],
    rflags := [⟨true, false, false, false⟩] }

/-- Witness for C8: the missing `g_running_0` target leaves the `start`
action unexpanded, and the non-convertible monitor action is returned
unchanged. -/
theorem C8_witness :
    rsc_expand_action envW8 fsW8 0 = 0
    ∧ (rsc_expand_action envW8 fsW8 1 = 1
       ∨ (∃ r, (envW8.act 1).rsc = some r
           ∧ rsc_expand_action envW8 fsW8 1 ∈ (envW8.rsc r).actions))
    ∧ rsc_expand_action envW8 fsW8 1 = 1 :=
  ⟨C8_expansion_failure.1 envW8 fsW8 0 0 (by decide) (by decide),
   C8_expansion_failure.2.1 envW8 fsW8 1,
   C8_expansion_failure.2.2 envW8 fsW8 1 0 (by decide) (by decide) (by decide)⟩

/-- Number of edges in `l` whose referenced first action is runnable in
`fl` (the resource-less effective-runnability of a one-or-more
predecessor list). -/
def runnableFirstCount (fl : FlagState) (edges : List EdgeRec)
    (l : List Nat) : Nat :=
  (l.filter (fun eid =>
    (fl.af ((edges.getD eid EdgeRec.default).first)).runnable)).length

/-- The configuration class of the one-or-more threshold claim: `then` has
no resource and carries `REQUIRES_ANY`, has no successors, every
predecessor edge carries exactly `ONE_OR_MORE` and references a
resource-less first action distinct from `then`, and `then`'s rows exist in
the flag store. -/
def oneOrMoreConfig (env : Env) (t : Nat) (s : DState) : Bool :=
  ((env.act t).rsc == none)
  && (s.fl.af t).requiresAny
  && (s.afters.getD t []).isEmpty
  && decide (t < s.fl.aflags.length)
  && decide (t < s.fl.runBefore.length)
  && decide (t < s.fl.reqBefore.length)
  && (s.preds.getD t []).all (fun eid =>
    ((s.edges.getD eid EdgeRec.default).otype == OrderType.oneOrMoreOnly)
    && ((env.act ((s.edges.getD eid EdgeRec.default).first)).rsc == none)
    && ((s.edges.getD eid EdgeRec.default).first != t))

/-- Unfolding of `oneOrMoreConfig`. -/
theorem oneOrMoreConfig_spec (env : Env) (t : Nat) (s : DState)
    (h : oneOrMoreConfig env t s = true) :
    (env.act t).rsc = none
    ∧ (s.fl.af t).requiresAny = true
    ∧ s.afters.getD t [] = []
    ∧ t < s.fl.aflags.length
    ∧ t < s.fl.runBefore.length
    ∧ t < s.fl.reqBefore.length
    ∧ (∀ eid ∈ s.preds.getD t [],
        (s.edges.getD eid EdgeRec.default).otype = OrderType.oneOrMoreOnly
        ∧ (env.act ((s.edges.getD eid EdgeRec.default).first)).rsc = none
        ∧ (s.edges.getD eid EdgeRec.default).first ≠ t) := by
  simp only [oneOrMoreConfig, Bool.and_eq_true, List.all_eq_true,
    beq_iff_eq, decide_eq_true_eq, List.isEmpty_iff, bne_iff_ne] at h
  obtain ⟨⟨⟨⟨⟨⟨h1, h2⟩, h3⟩, h4⟩, h5⟩, h6⟩, h7⟩ := h
  exact ⟨h1, h2, h3, h4, h5, h6, fun eid hm =>
    ⟨(h7 eid hm).1.1, (h7 eid hm).1.2, (h7 eid hm).2⟩⟩


/-- The evaluator on an edge carrying exactly `ONE_OR_MORE` with a
resource-less `then`: a runnable (effective) first applies
`oneOrMoreFallback`, recording `UPDATED_THEN` exactly when the threshold
was crossed; an unrunnable first changes nothing. -/
theorem oneOrMore_eval (env : Env) (f t : Nat) (node : Option Nat)
    (ff tf : ActionFlags) (eid : Nat) (s : DState)
    (hty : (s.edges.getD eid EdgeRec.default).otype = OrderType.oneOrMoreOnly)
    (ht : (env.act t).rsc = none) :
    graph_update_action env f t node ff tf eid s =
      (if ff.runnable then
        ((if (oneOrMoreFallback t s.fl).1
          then { GraphChange.noneC with updatedThen := true }
          else GraphChange.noneC),
         { s with fl := (oneOrMoreFallback t s.fl).2 })
      else (GraphChange.noneC, s)) := by
  unfold graph_update_action
  rw [hty]
  by_cases c1 : ff.runnable
  · by_cases c2 : (oneOrMoreFallback t s.fl).1
    · simp [graph_update_action_core, evalPre, evalPost, onNodeRewrite, impliesThenBlock,
        restartBlock, impliesFirstBlock, promotedImpliesFirstBlock,
        oneOrMoreBlock, probeBlock, runnableLeftBlock, migratableBlock,
        pseudoLeftBlock, optionalOrderBlock, asymmetricalBlock,
        impliesThenPrintedBlock, impliesFirstPrintedBlock, blockedStopBlock,
        OrderType.oneOrMoreOnly, OrderType.noneK, c1, c2, ht]
    · simp [graph_update_action_core, evalPre, evalPost, onNodeRewrite, impliesThenBlock,
        restartBlock, impliesFirstBlock, promotedImpliesFirstBlock,
        oneOrMoreBlock, probeBlock, runnableLeftBlock, migratableBlock,
        pseudoLeftBlock, optionalOrderBlock, asymmetricalBlock,
        impliesThenPrintedBlock, impliesFirstPrintedBlock, blockedStopBlock,
        OrderType.oneOrMoreOnly, OrderType.noneK, c1, c2, ht]
  · simp [graph_update_action_core, evalPre, evalPost, onNodeRewrite, impliesThenBlock,
      restartBlock, impliesFirstBlock, promotedImpliesFirstBlock,
      oneOrMoreBlock, probeBlock, runnableLeftBlock, migratableBlock,
      pseudoLeftBlock, optionalOrderBlock, asymmetricalBlock,
      impliesThenPrintedBlock, impliesFirstPrintedBlock, blockedStopBlock,
      OrderType.oneOrMoreOnly, OrderType.noneK, c1, ht]

/-- Record eta for storing back an unchanged runnable bit. -/
theorem af_runnable_eta (f : ActionFlags) : { f with runnable := f.runnable } = f :=
  rfl

/-- Characterization of `oneOrMoreFallback`: it bumps `runnable_before`,
sets the runnable flag exactly when the bumped count reaches the required
count, and changes nothing else. -/
theorem oneOrMoreFallback_spec (t : Nat) (fs : FlagState)
    (ha : t < fs.aflags.length) (hr : t < fs.runBefore.length) :
    ((oneOrMoreFallback t fs).2).rb t = fs.rb t + 1
    ∧ ((oneOrMoreFallback t fs).2).af t
        = { fs.af t with runnable :=
            (fs.af t).runnable || decide (fs.rb t + 1 ≥ fs.req t) }
    ∧ (∀ a, a ≠ t → ((oneOrMoreFallback t fs).2).af a = fs.af a)
    ∧ ((oneOrMoreFallback t fs).2).reqBefore = fs.reqBefore
    ∧ ((oneOrMoreFallback t fs).2).rflags = fs.rflags
    ∧ ((oneOrMoreFallback t fs).2).aflags.length = fs.aflags.length
    ∧ ((oneOrMoreFallback t fs).2).runBefore.length = fs.runBefore.length
    ∧ ((oneOrMoreFallback t fs).2).reqBefore.length = fs.reqBefore.length := by
  have hbump : ({ fs with runBefore := fs.runBefore.set t (fs.rb t + 1) } :
      FlagState).rb t = fs.rb t + 1 := by
    show (fs.runBefore.set t (fs.rb t + 1)).getD t 0 = fs.rb t + 1
    exact getD_set_self _ _ _ _ hr
  have e2 : ({ fs with runBefore := fs.runBefore.set t (fs.rb t + 1) } :
      FlagState).req t = fs.req t := rfl
  have e3 : ({ fs with runBefore := fs.runBefore.set t (fs.rb t + 1) } :
      FlagState).af t = fs.af t := rfl
  unfold oneOrMoreFallback
  by_cases hc : (({ fs with
      runBefore := fs.runBefore.set t (fs.rb t + 1) } : FlagState).rb t
      ≥ ({ fs with runBefore := fs.runBefore.set t (fs.rb t + 1) } :
        FlagState).req t)
      && !(({ fs with runBefore := fs.runBefore.set t (fs.rb t + 1) } :
        FlagState).af t).runnable
  · have hge : fs.rb t + 1 ≥ fs.req t ∧ (fs.af t).runnable = false := by
      rw [hbump, e2, e3] at hc
      simpa using hc
    simp only [hc, if_true]
    refine ⟨?_, ?_, ?_, rfl, rfl, ?_, ?_, rfl⟩
    · show ((({ fs with runBefore := fs.runBefore.set t (fs.rb t + 1) } :
        FlagState).setAf t _).runBefore).getD t 0 = fs.rb t + 1
      exact getD_set_self _ _ _ _ hr
    · rw [af_setAf_self _ _ _ (by simpa using ha), e3]
      have hv : ((fs.af t).runnable || decide (fs.rb t + 1 ≥ fs.req t)) = true := by
        simp [hge.1]
      rw [hv]
    · intro a hat
      rw [af_setAf_ne _ _ _ _ (Ne.symm hat)]
      rfl
    · simp [FlagState.setAf]
    · simp [FlagState.setAf]
  · have hco : ¬ (fs.rb t + 1 ≥ fs.req t ∧ (fs.af t).runnable = false) := by
      rw [hbump, e2, e3] at hc
      intro hcon
      apply hc
      rw [hcon.2]
      simp [hcon.1]
    rw [if_neg hc]
    refine ⟨hbump, ?_, fun a hat => rfl, rfl, rfl, rfl, by simp, rfl⟩
    rw [e3]
    have hval : ((fs.af t).runnable || decide (fs.rb t + 1 ≥ fs.req t))
        = (fs.af t).runnable := by
      by_cases hrun : (fs.af t).runnable = true
      · simp [hrun]
      · have hrf : (fs.af t).runnable = false := by simpa using hrun
        have hlt : ¬ fs.rb t + 1 ≥ fs.req t := fun hge => hco ⟨hge, hrf⟩
        simp [hrf, hlt]
    rw [hval, af_runnable_eta]

/-- One driver-loop iteration in a one-or-more configuration: the filter
does not fire, no `UPDATED_FIRST` or `DISABLE` is recorded, and the state
is changed only by `oneOrMoreFallback` on `then` when the referenced first
action is runnable. -/
theorem oneOrMore_iter (env : Env) (t : Nat) (ch : GraphChange) (i : Nat)
    (s : DState) (hcfg : oneOrMoreConfig env t s = true)
    (hd : ch.disable = false)
    (hi : i < (s.preds.getD t []).length) :
    (edge_iter env t ch i s).filtered = false
    ∧ (edge_iter env t ch i s).changed.updatedFirst = false
    ∧ (edge_iter env t ch i s).changed.disable = false
    ∧ (edge_iter env t ch i s).st =
        (if (s.fl.af ((s.edges.getD ((s.preds.getD t []).getD i 0)
              EdgeRec.default).first)).runnable
         then { s with fl := (oneOrMoreFallback t s.fl).2 }
         else s) := by
  obtain ⟨hrt, hreq, haft, hla, hlr, hlq, hedge⟩ := oneOrMoreConfig_spec env t s hcfg
  have hmem : (s.preds.getD t []).getD i 0 ∈ s.preds.getD t [] := by
    rw [List.getD_eq_getElem _ 0 hi]
    exact List.getElem_mem hi
  obtain ⟨hod, hfr, hft⟩ := hedge _ hmem
  have hafo : action_flags_for_ordering env
      ((s.edges.getD ((s.preds.getD t []).getD i 0) EdgeRec.default).first)
      (fixNode env t) s.fl
      = s.fl.af ((s.edges.getD ((s.preds.getD t []).getD i 0)
          EdgeRec.default).first) := by
    simp only [action_flags_for_ordering, hfr]
  have heval := oneOrMore_eval env
    ((s.edges.getD ((s.preds.getD t []).getD i 0) EdgeRec.default).first) t
    ((env.act t).node)
    (s.fl.af ((s.edges.getD ((s.preds.getD t []).getD i 0)
        EdgeRec.default).first))
    (action_flags_for_ordering env t
      (fixNode env ((s.edges.getD ((s.preds.getD t []).getD i 0)
        EdgeRec.default).first)) s.fl)
    ((s.preds.getD t []).getD i 0) s hod hrt
  by_cases hrun : (s.fl.af ((s.edges.getD ((s.preds.getD t []).getD i 0)
      EdgeRec.default).first)).runnable
  · by_cases hfc : (oneOrMoreFallback t s.fl).1
    · refine ⟨?_, ?_, ?_, ?_⟩ <;>
        simp only [edge_iter, hod, OrderType.oneOrMoreOnly, OrderType.noneK,
          cancelStep, hfr, expandGuard, hafo, heval, hrun, hfc, hd,
          GraphChange.orC, GraphChange.noneC, Bool.false_and, Bool.and_false,
          Bool.false_or, Bool.or_false, Bool.false_eq_true, if_false,
          Option.isSome_none, beq_self_eq_true, if_true]
    · refine ⟨?_, ?_, ?_, ?_⟩ <;>
        simp only [edge_iter, hod, OrderType.oneOrMoreOnly, OrderType.noneK,
          cancelStep, hfr, expandGuard, hafo, heval, hrun, hfc, hd,
          GraphChange.orC, GraphChange.noneC, Bool.false_and, Bool.and_false,
          Bool.false_or, Bool.or_false, Bool.false_eq_true, if_false,
          Option.isSome_none, beq_self_eq_true, if_true]
  · refine ⟨?_, ?_, ?_, ?_⟩ <;>
      simp only [edge_iter, hod, OrderType.oneOrMoreOnly, OrderType.noneK,
        cancelStep, hfr, expandGuard, hafo, heval, hrun, hd,
        GraphChange.orC, GraphChange.noneC, Bool.false_and, Bool.and_false,
        Bool.false_or, Bool.or_false, Bool.false_eq_true, if_false,
        Option.isSome_none, beq_self_eq_true, if_true]

/-- The one-or-more configuration survives an application of
`oneOrMoreFallback` to `then`. -/
theorem oneOrMoreConfig_preserved (env : Env) (t : Nat) (s : DState)
    (h : oneOrMoreConfig env t s = true) :
    oneOrMoreConfig env t { s with fl := (oneOrMoreFallback t s.fl).2 }
      = true := by
  obtain ⟨hrt, hreq, haft, hla, hlr, hlq, hedge⟩ := oneOrMoreConfig_spec env t s h
  obtain ⟨frb, faf, fne, freq, frfl, flena, flenr, flenq⟩ :=
    oneOrMoreFallback_spec t s.fl hla hlr
  simp only [oneOrMoreConfig, Bool.and_eq_true, List.all_eq_true,
    beq_iff_eq, decide_eq_true_eq, List.isEmpty_iff, bne_iff_ne] at h ⊢
  refine ⟨⟨⟨⟨⟨⟨hrt, ?_⟩, haft⟩, ?_⟩, ?_⟩, ?_⟩, ?_⟩
  · show (((oneOrMoreFallback t s.fl).2).af t).requiresAny = true
    rw [faf]
    exact hreq
  · show t < ((oneOrMoreFallback t s.fl).2).aflags.length
    omega
  · show t < ((oneOrMoreFallback t s.fl).2).runBefore.length
    omega
  · show t < ((oneOrMoreFallback t s.fl).2).reqBefore.length
    omega
  · intro eid hm
    exact h.2 eid hm

/-- Counting runnable firsts is invariant under a flag change that leaves
every referenced first action's flags unchanged. -/
theorem runnableFirstCount_congr (fl1 fl2 : FlagState)
    (edges : List EdgeRec) (l : List Nat)
    (h : ∀ eid ∈ l, fl1.af ((edges.getD eid EdgeRec.default).first)
      = fl2.af ((edges.getD eid EdgeRec.default).first)) :
    runnableFirstCount fl1 edges l = runnableFirstCount fl2 edges l := by
  unfold runnableFirstCount
  rw [List.filter_congr (fun eid hm => by rw [h eid hm])]

/-- Splitting the count at the head of the remaining predecessor list. -/
theorem runnableFirstCount_drop (fl : FlagState) (edges : List EdgeRec)
    (l : List Nat) (i : Nat) (hi : i < l.length) :
    runnableFirstCount fl edges (l.drop i)
      = (if (fl.af ((edges.getD (l.getD i 0) EdgeRec.default).first)).runnable
         then 1 else 0)
        + runnableFirstCount fl edges (l.drop (i + 1)) := by
  rw [List.getD_eq_getElem l 0 hi]
  unfold runnableFirstCount
  rw [List.drop_eq_getElem_cons hi, List.filter_cons]
  split
  · simp only [List.length_cons]
    omega
  · omega

/-- The Bool identity behind threshold crossing: bump-then-count equals
counting the bump. -/
theorem threshold_or (old : Bool) (rb cnt' req : Nat) :
    ((old || decide (rb + 1 ≥ req))
      || (decide (1 ≤ cnt') && decide (rb + 1 + cnt' ≥ req)))
    = (old || (decide (1 ≤ 1 + cnt') && decide (rb + (1 + cnt') ≥ req))) := by
  by_cases h1 : rb + 1 ≥ req
  · have h2 : rb + (1 + cnt') ≥ req := by omega
    simp [h1, h2]
  · by_cases h3 : 1 ≤ cnt'
    · have h4 : (rb + 1 + cnt' ≥ req) ↔ (rb + (1 + cnt') ≥ req) := by omega
      simp [h1, h3, h4]
    · have h5 : cnt' = 0 := by omega
      subst h5
      have h6 : ¬ rb + (1 + 0) ≥ req := by omega
      simp [h1, h6]

/-- The driver's edge loop in a one-or-more configuration: starting at
index `i`, it adds the number of runnable firsts among the remaining
predecessor edges to `then->runnable_before`, sets `then`'s runnable flag
exactly when at least one increment happened at or above the required
count, and changes nothing else. -/
theorem oneOrMore_loop (env : Env) (t : Nat) :
    ∀ (fuel : Nat) (i : Nat) (ch : GraphChange) (s : DState)
      (r : GraphChange × DState),
      oneOrMoreConfig env t s = true →
      ch.disable = false →
      loop_edges env fuel t i ch s = some r →
      r.2.fl.rb t = s.fl.rb t
          + runnableFirstCount s.fl s.edges ((s.preds.getD t []).drop i)
      ∧ r.2.fl.af t = { s.fl.af t with runnable :=
          ((s.fl.af t).runnable
          || (decide (1 ≤ runnableFirstCount s.fl s.edges
                ((s.preds.getD t []).drop i))
              && decide (s.fl.rb t + runnableFirstCount s.fl
                s.edges ((s.preds.getD t []).drop i) ≥ s.fl.req t))) }
      ∧ (∀ a, a ≠ t → r.2.fl.af a = s.fl.af a)
      ∧ r.2.fl.reqBefore = s.fl.reqBefore
      ∧ r.2.fl.rflags = s.fl.rflags
      ∧ r.2.edges = s.edges
      ∧ r.2.preds = s.preds
      ∧ r.2.afters = s.afters
      ∧ r.2.fl.aflags.length = s.fl.aflags.length
      ∧ r.2.fl.runBefore.length = s.fl.runBefore.length
      ∧ r.2.fl.reqBefore.length = s.fl.reqBefore.length := by
  intro fuel
  induction fuel with
  | zero =>
    intro i ch s r hcfg hd hloop
    simp [loop_edges_zero] at hloop
  | succ g ih =>
    intro i ch s r hcfg hd hloop
    by_cases hi : i < (s.preds.getD t []).length
    · obtain ⟨f1, f2, f3, f4⟩ := oneOrMore_iter env t ch i s hcfg hd hi
      rw [loop_edges_succ] at hloop
      simp only [if_pos hi, f1, f2, Bool.false_eq_true, if_false] at hloop
      by_cases hrun : (s.fl.af ((s.edges.getD ((s.preds.getD t []).getD i 0)
          EdgeRec.default).first)).runnable
      · rw [f4, if_pos hrun] at hloop
        obtain ⟨hrt, hreq, haft, hla, hlr, hlq, hedge⟩ :=
          oneOrMoreConfig_spec env t s hcfg
        obtain ⟨frb, faf, fne, freq, frfl, flena, flenr, flenq⟩ :=
          oneOrMoreFallback_spec t s.fl hla hlr
        have hcfg' := oneOrMoreConfig_preserved env t s hcfg
        obtain ⟨irb, iaf, ine, ireq, irfl, iedg, iprd, iaft, ilena, ilenr,
          ilenq⟩ := ih (i + 1) _ _ r hcfg' f3 hloop
        have hcnt : runnableFirstCount (oneOrMoreFallback t s.fl).2 s.edges
            ((s.preds.getD t []).drop (i + 1))
            = runnableFirstCount s.fl s.edges
              ((s.preds.getD t []).drop (i + 1)) := by
          apply runnableFirstCount_congr
          intro eid hm
          have hmm : eid ∈ s.preds.getD t [] := List.drop_subset _ _ hm
          exact fne _ (hedge eid hmm).2.2
        have hsplit := runnableFirstCount_drop s.fl s.edges
          (s.preds.getD t []) i hi
        rw [if_pos hrun] at hsplit
        have hreqt : ((oneOrMoreFallback t s.fl).2).req t = s.fl.req t := by
          show ((oneOrMoreFallback t s.fl).2).reqBefore.getD t 0
            = s.fl.reqBefore.getD t 0
          rw [freq]
        refine ⟨?_, ?_, ?_, ?_, ?_, ?_, ?_, ?_, ?_, ?_, ?_⟩
        · rw [irb, frb, hcnt, hsplit]
          omega
        · rw [iaf, faf, hcnt, frb, hreqt, hsplit]
          simp only [ActionFlags.mk.injEq, and_true, true_and]
          exact threshold_or (s.fl.af t).runnable (s.fl.rb t)
            (runnableFirstCount s.fl s.edges
              ((s.preds.getD t []).drop (i + 1))) (s.fl.req t)
        · intro a hat
          rw [ine a hat, fne a hat]
        · rw [ireq, freq]
        · rw [irfl, frfl]
        · exact iedg
        · exact iprd
        · exact iaft
        · rw [ilena, flena]
        · rw [ilenr, flenr]
        · rw [ilenq, flenq]
      · rw [f4, if_neg hrun] at hloop
        obtain ⟨irb, iaf, ine, ireq, irfl, iedg, iprd, iaft, ilena, ilenr,
          ilenq⟩ := ih (i + 1) _ _ r hcfg f3 hloop
        have hsplit := runnableFirstCount_drop s.fl s.edges
          (s.preds.getD t []) i hi
        rw [if_neg hrun] at hsplit
        rw [hsplit]
        simp only [Nat.zero_add]
        exact ⟨irb, iaf, ine, ireq, irfl, iedg, iprd, iaft, ilena, ilenr,
          ilenq⟩
    · rw [loop_edges_succ] at hloop
      simp only [if_neg hi] at hloop
      obtain rfl : (ch, s) = r := by
        simpa using hloop
      have hdrop : (s.preds.getD t []).drop i = [] :=
        List.drop_eq_nil_of_le (by omega)
      rw [hdrop]
      simp [runnableFirstCount]

/-- Characterization of the `REQUIRES_ANY` preamble: `runnable_before`
reset to 0, `required_runnable_before` defaulted to 1 when 0, runnable
cleared, and nothing else changed. -/
theorem requiresAnyPreamble_spec (t : Nat) (fs : FlagState)
    (ha : t < fs.aflags.length) (hr : t < fs.runBefore.length)
    (hq : t < fs.reqBefore.length) :
    (requiresAnyPreamble t fs).rb t = 0
    ∧ (requiresAnyPreamble t fs).req t
        = (if fs.req t = 0 then 1 else fs.req t)
    ∧ (requiresAnyPreamble t fs).af t = { fs.af t with runnable := false }
    ∧ (∀ a, a ≠ t → (requiresAnyPreamble t fs).af a = fs.af a)
    ∧ (requiresAnyPreamble t fs).rflags = fs.rflags
    ∧ (requiresAnyPreamble t fs).aflags.length = fs.aflags.length
    ∧ (requiresAnyPreamble t fs).runBefore.length = fs.runBefore.length
    ∧ (requiresAnyPreamble t fs).reqBefore.length = fs.reqBefore.length := by
  simp only [requiresAnyPreamble]
  by_cases hc : (({ fs with runBefore := fs.runBefore.set t 0 } :
      FlagState).req t == 0) = true
  · have hc' : fs.req t = 0 := by simpa using hc
    rw [if_pos hc]
    refine ⟨?_, ?_, ?_, ?_, rfl, ?_, ?_, ?_⟩
    · show ((fs.runBefore.set t 0).getD t 0) = 0
      exact getD_set_self _ _ _ _ hr
    · show ((fs.reqBefore.set t 1).getD t 0) = _
      rw [getD_set_self _ _ _ _ hq, if_pos hc']
    · rw [af_setAf_self _ _ _ (by simpa using ha)]
      rfl
    · intro a hat
      rw [af_setAf_ne _ _ _ _ (Ne.symm hat)]
      rfl
    · simp [FlagState.setAf]
    · simp [FlagState.setAf]
    · simp [FlagState.setAf]
  · have hc' : ¬ fs.req t = 0 := by simpa using hc
    rw [if_neg hc]
    refine ⟨?_, ?_, ?_, ?_, rfl, ?_, ?_, ?_⟩
    · show ((fs.runBefore.set t 0).getD t 0) = 0
      exact getD_set_self _ _ _ _ hr
    · show fs.reqBefore.getD t 0 = _
      rw [if_neg hc']
      rfl
    · rw [af_setAf_self _ _ _ (by simpa using ha)]
      rfl
    · intro a hat
      rw [af_setAf_ne _ _ _ _ (Ne.symm hat)]
      rfl
    · simp [FlagState.setAf]
    · simp [FlagState.setAf]
    · simp [FlagState.setAf]

/-- A one-or-more configuration transfers to any state agreeing on the
graph structure, flag-store sizes and `then`'s `REQUIRES_ANY` bit. -/
theorem oneOrMoreConfig_transfer (env : Env) (t : Nat) (s s2 : DState)
    (h : oneOrMoreConfig env t s = true)
    (hp : s2.preds = s.preds) (he : s2.edges = s.edges)
    (haf2 : s2.afters = s.afters)
    (hla2 : s2.fl.aflags.length = s.fl.aflags.length)
    (hlr2 : s2.fl.runBefore.length = s.fl.runBefore.length)
    (hlq2 : s2.fl.reqBefore.length = s.fl.reqBefore.length)
    (hra : (s2.fl.af t).requiresAny = true) :
    oneOrMoreConfig env t s2 = true := by
  obtain ⟨hrt, hreq, haft, hla, hlr, hlq, hedge⟩ := oneOrMoreConfig_spec env t s h
  simp only [oneOrMoreConfig, Bool.and_eq_true, List.all_eq_true,
    beq_iff_eq, decide_eq_true_eq, List.isEmpty_iff, bne_iff_ne]
  refine ⟨⟨⟨⟨⟨⟨hrt, hra⟩, ?_⟩, ?_⟩, ?_⟩, ?_⟩, ?_⟩
  · rw [haf2]
    exact haft
  · omega
  · omega
  · omega
  · intro eid hm
    rw [hp] at hm
    rw [he]
    exact ⟨⟨(hedge eid hm).1, (hedge eid hm).2.1⟩, (hedge eid hm).2.2⟩

/-- The Bool identity collapsing the two threshold decides when the
required count is at least one. -/
theorem threshold_collapse (cnt req' : Nat) (hq : 1 ≤ req') :
    (false || (decide (1 ≤ cnt) && decide (0 + cnt ≥ req')))
      = decide (cnt ≥ req') := by
  by_cases h1 : cnt ≥ req'
  · have h2 : 1 ≤ cnt := by omega
    have h3 : 0 + cnt ≥ req' := by omega
    simp [h1, h2, h3]
  · have h3 : ¬ 0 + cnt ≥ req' := by omega
    simp [h1, h3]

/-- `update_action` on a one-or-more configuration: when the pass
terminates, `then.runnable_before` equals the number of (effectively)
runnable firsts among its predecessor edges, and `then.RUNNABLE` is set
exactly when that count reaches the (defaulted) required count; the graph
structure and every other action's flags are untouched. -/
theorem oneOrMore_update (env : Env) (t : Nat) :
    ∀ (fuel : Nat) (s s' : DState),
      oneOrMoreConfig env t s = true →
      update_action env fuel t s = some s' →
      s'.fl.rb t = runnableFirstCount s.fl s.edges (s.preds.getD t [])
      ∧ (s'.fl.af t).runnable
          = decide (runnableFirstCount s.fl s.edges (s.preds.getD t [])
              ≥ (if s.fl.req t = 0 then 1 else s.fl.req t))
      ∧ s'.preds = s.preds ∧ s'.edges = s.edges ∧ s'.afters = s.afters
      ∧ (∀ a, a ≠ t → s'.fl.af a = s.fl.af a)
      ∧ s'.fl.aflags.length = s.fl.aflags.length
      ∧ s'.fl.runBefore.length = s.fl.runBefore.length
      ∧ s'.fl.reqBefore.length = s.fl.reqBefore.length
      ∧ (s'.fl.af t).requiresAny = true := by
  intro fuel
  induction fuel with
  | zero =>
    intro s s' hcfg h
    simp [update_action_zero] at h
  | succ g ih =>
    intro s s' hcfg h
    obtain ⟨hrt, hreq, haft, hla, hlr, hlq, hedge⟩ :=
      oneOrMoreConfig_spec env t s hcfg
    obtain ⟨prb, preq, paf, pne, prfl, plena, plenr, plenq⟩ :=
      requiresAnyPreamble_spec t s.fl hla hlr hlq
    have hq1 : 1 ≤ (if s.fl.req t = 0 then 1 else s.fl.req t) := by
      by_cases h0 : s.fl.req t = 0 <;> simp [h0] <;> omega
    rw [update_action_succ] at h
    simp only [hreq, if_true] at h
    cases hl : loop_edges env g t 0 GraphChange.noneC
        { s with fl := requiresAnyPreamble t s.fl } with
    | none =>
      rw [hl] at h
      simp at h
    | some pr =>
      obtain ⟨ch1, s2⟩ := pr
      rw [hl] at h
      dsimp only at h
      have hra1 : (({ s with fl := requiresAnyPreamble t s.fl } :
          DState).fl.af t).requiresAny = true := by
        show ((requiresAnyPreamble t s.fl).af t).requiresAny = true
        rw [paf]
        exact hreq
      have hcfg1 : oneOrMoreConfig env t
          { s with fl := requiresAnyPreamble t s.fl } = true :=
        oneOrMoreConfig_transfer env t s _ hcfg rfl rfl rfl plena plenr
          plenq hra1
      obtain ⟨lrb, laf, lne, lreq, lrfl, ledg, lprd, laftr, llena, llenr,
        llenq⟩ := oneOrMore_loop env t g 0 GraphChange.noneC _ (ch1, s2)
          hcfg1 rfl hl
      rw [List.drop_zero] at lrb laf
      have hcnt1 : runnableFirstCount (requiresAnyPreamble t s.fl) s.edges
          (s.preds.getD t [])
          = runnableFirstCount s.fl s.edges (s.preds.getD t []) := by
        apply runnableFirstCount_congr
        intro eid hm
        exact pne _ (hedge eid hm).2.2
      have hs2rb : s2.fl.rb t
          = runnableFirstCount s.fl s.edges (s.preds.getD t []) := by
        rw [lrb]
        show (requiresAnyPreamble t s.fl).rb t + _ = _
        rw [prb, hcnt1]
        omega
      have hs2af : s2.fl.af t = { s.fl.af t with
          runnable := decide (runnableFirstCount s.fl s.edges
            (s.preds.getD t [])
            ≥ (if s.fl.req t = 0 then 1 else s.fl.req t)) } := by
        rw [laf]
        show ({ (requiresAnyPreamble t s.fl).af t with runnable := _ }
          : ActionFlags) = _
        rw [paf, prb, hcnt1]
        have hrq : ({ s with fl := requiresAnyPreamble t s.fl } :
            DState).fl.req t = (if s.fl.req t = 0 then 1 else s.fl.req t) :=
          preq
        rw [hrq, threshold_collapse _ _ hq1]
      have hreq2 : (s2.fl.af t).requiresAny = true := by
        rw [hs2af]
        exact hreq
      rw [hreq2] at h
      simp only [if_true] at h
      by_cases heq : s.fl.af t = s2.fl.af t
      · rw [if_pos heq] at h
        simp only at h
        obtain rfl : s2 = s' := by
          simpa using h
        refine ⟨hs2rb, ?_, ?_, ?_, ?_, ?_, ?_, ?_, ?_, hreq2⟩
        · rw [hs2af]
        · exact lprd
        · exact ledg
        · exact laftr
        · intro a hat
          rw [lne a hat]
          exact pne a hat
        · rw [llena]
          exact plena
        · rw [llenr]
          exact plenr
        · rw [llenq]
          exact plenq
      · rw [if_neg heq] at h
        simp only [blockColocatedStarts, ite_self] at h
        cases hrec : update_action env g t s2 with
        | none =>
          rw [hrec] at h
          simp at h
        | some s3 =>
          rw [hrec] at h
          dsimp only at h
          have hcfg2 : oneOrMoreConfig env t s2 = true :=
            oneOrMoreConfig_transfer env t s s2 hcfg lprd ledg laftr
              (by rw [llena]; exact plena) (by rw [llenr]; exact plenr)
              (by rw [llenq]; exact plenq) hreq2
          obtain ⟨irb, iaf, iprd, iedg, iaft, ine, ilena, ilenr, ilenq,
            ira⟩ := ih s2 s3 hcfg2 hrec
          have hcnt2 : runnableFirstCount s2.fl s2.edges (s2.preds.getD t [])
              = runnableFirstCount s.fl s.edges (s.preds.getD t []) := by
            rw [ledg, lprd]
            apply runnableFirstCount_congr
            intro eid hm
            rw [lne _ (hedge eid hm).2.2]
            exact pne _ (hedge eid hm).2.2
          have hrq2 : s2.fl.req t
              = (if s.fl.req t = 0 then 1 else s.fl.req t) := by
            show s2.fl.reqBefore.getD t 0 = _
            rw [lreq]
            exact preq
          have hadj2 : (if s2.fl.req t = 0 then 1 else s2.fl.req t)
              = (if s.fl.req t = 0 then 1 else s.fl.req t) := by
            rw [hrq2]
            have : ¬ (if s.fl.req t = 0 then 1 else s.fl.req t) = 0 := by
              omega
            rw [if_neg this]
          have hs3aft : s3.afters.getD t [] = [] := by
            rw [iaft, laftr]
            exact haft
          cases g with
          | zero =>
            simp [loop_afters_zero] at h
          | succ g2 =>
            rw [loop_afters_succ] at h
            simp only [hs3aft, List.length_nil] at h
            simp only [Nat.lt_irrefl, if_false] at h
            obtain rfl : s3 = s' := by
              simpa using h
            refine ⟨?_, ?_, ?_, ?_, ?_, ?_, ?_, ?_, ?_, ira⟩
            · rw [irb, hcnt2]
            · rw [iaf, hcnt2, hadj2]
            · rw [iprd]
              exact lprd
            · rw [iedg]
              exact ledg
            · rw [iaft]
              exact laftr
            · intro a hat
              rw [ine a hat, lne a hat]
              exact pne a hat
            · rw [ilena, llena]
              exact plena
            · rw [ilenr, llenr]
              exact plenr
            · rw [ilenq, llenq]
              exact plenq

/-- C2: the `REQUIRES_ANY` preamble of `update(then)` resets
`runnable_before` to 0, defaults `required_runnable_before` to 1 when it
was 0, and clears `RUNNABLE`; and for a `then` carrying `REQUIRES_ANY` with
no resource whose predecessor edges all carry exactly `ONE_OR_MORE` (with
resource-less firsts and no successors of `then`), a terminating
`update(then)` ends with `runnable_before` equal to the number of runnable
firsts and `RUNNABLE` set exactly when that count reaches the (defaulted)
required count. -/
theorem C2_one_or_more :
    (∀ (t : Nat) (fs : FlagState),
      t < fs.aflags.length → t < fs.runBefore.length →
      t < fs.reqBefore.length →
      (requiresAnyPreamble t fs).rb t = 0
      ∧ (requiresAnyPreamble t fs).req t
          = (if fs.req t = 0 then 1 else fs.req t)
      ∧ (requiresAnyPreamble t fs).af t = { fs.af t with runnable := false })
    ∧ (∀ (env : Env) (fuel t : Nat) (s s' : DState),
      oneOrMoreConfig env t s = true →
      update_action env fuel t s = some s' →
      s'.fl.rb t = runnableFirstCount s.fl s.edges (s.preds.getD t [])
      ∧ (s'.fl.af t).runnable
          = decide (runnableFirstCount s.fl s.edges (s.preds.getD t [])
              ≥ (if s.fl.req t = 0 then 1 else s.fl.req t))) := by
  constructor
  · intro t fs ha hr hq
    obtain ⟨p1, p2, p3, _⟩ := requiresAnyPreamble_spec t fs ha hr hq
    exact ⟨p1, p2, p3⟩
  · intro env fuel t s s' hcfg h
    obtain ⟨h1, h2, _⟩ := oneOrMore_update env t fuel s s' hcfg h
    exact ⟨h1, h2⟩

/-- Concrete environment for the C2 witness: three resource-less firsts
into a `REQUIRES_ANY` action. -/
def envW2 : Env :=
  { acts := [⟨Uuid.op "f1" "start" 0, "start", none, none⟩,
             ⟨Uuid.op "f2" "start" 0, "start", none, none⟩,
             ⟨Uuid.op "f3" "start" 0, "start", none, none⟩,
             ⟨Uuid.op "t" "start" 0, "start", none, none⟩],
    rscs := [], cb := cbZero, hook := hookZero }

/-- Concrete state for the C2 witness: `required_runnable_before = 2`,
three `ONE_OR_MORE` predecessors of which two are runnable. -/
def sW2 : DState :=
  { fl := { aflags := [{ ActionFlags.zero with runnable := true },
                       { ActionFlags.zero with runnable := true },
                       ActionFlags.zero,
                       { ActionFlags.zero with requiresAny := true }],
            runBefore := [0, 0, 0, 0], reqBefore := [0, 0, 0, 2],
            rflags := [] },
    edges := [⟨0, OrderType.oneOrMoreOnly⟩, ⟨1, OrderType.oneOrMoreOnly⟩,
              ⟨2, OrderType.oneOrMoreOnly⟩],
    preds := [[], [], [], [0, 1, 2]], afters := [[], [], [], []] }

/-- The state the C2 witness pass ends in. -/
def sW2res : DState :=
  (update_action envW2 20 3 sW2).getD sW2

/-- Witness for C2: the concrete threshold scenario, ending with
`runnable_before = 2` and `RUNNABLE` set. -/
theorem C2_witness :
    (sW2res.fl.rb 3
      = runnableFirstCount sW2.fl sW2.edges (sW2.preds.getD 3 [])
     ∧ (sW2res.fl.af 3).runnable
      = decide (runnableFirstCount sW2.fl sW2.edges (sW2.preds.getD 3 [])
          ≥ (if sW2.fl.req 3 = 0 then 1 else sW2.fl.req 3)))
    ∧ sW2res.fl.rb 3 = 2 ∧ (sW2res.fl.af 3).runnable = true :=
  ⟨C2_one_or_more.2 envW2 20 3 sW2 sW2res (by decide) (by decide),
   by decide, by decide⟩

/-- Well-formed predecessor lists: every listed edge id is inside the edge
pool. -/
def PredsWFP (s : DState) : Prop :=
  ∀ a : Nat, ∀ eid ∈ s.preds.getD a [], eid < s.edges.length

/-- Decidable form of `PredsWFP` over the stored lists. -/
def predsWF (s : DState) : Bool :=
  s.preds.all (fun l => l.all (fun eid => decide (eid < s.edges.length)))

/-- The Bool check implies the Prop form. -/
theorem predsWF_spec (s : DState) (h : predsWF s = true) : PredsWFP s := by
  intro a eid hm
  by_cases ha : a < s.preds.length
  · have h1 := List.all_eq_true.mp h (s.preds.getD a [])
      (by rw [List.getD_eq_getElem _ [] ha]; exact List.getElem_mem ha)
    have h2 := List.all_eq_true.mp h1 eid hm
    exact of_decide_eq_true h2
  · rw [List.getD_eq_default _ _ (by omega)] at hm
    simp at hm

/-- How one resolver step may change the graph: the edge pool only grows,
existing edges keep their `first` and either keep their kind or become
`pe_order_none`, predecessor lists only grow at the tail, and
well-formedness of the predecessor lists is preserved. -/
structure Evolves (s s' : DState) : Prop where
  len : s.edges.length ≤ s'.edges.length
  first_eq : ∀ i, i < s.edges.length →
    (s'.edges.getD i EdgeRec.default).first
      = (s.edges.getD i EdgeRec.default).first
  decay : ∀ i, i < s.edges.length →
    (s'.edges.getD i EdgeRec.default).otype
        = (s.edges.getD i EdgeRec.default).otype
      ∨ (s'.edges.getD i EdgeRec.default).otype = OrderType.noneK
  predsGrow : ∀ a : Nat, (s.preds.getD a []) <+: (s'.preds.getD a [])
  wf : PredsWFP s → PredsWFP s'

/-- `Evolves` is reflexive. -/
theorem Evolves.refl (s : DState) : Evolves s s :=
  ⟨Nat.le_refl _, fun _ _ => rfl, fun _ _ => Or.inl rfl,
   fun _ => List.prefix_refl _, id⟩

/-- `Evolves` is transitive. -/
theorem Evolves.trans {s1 s2 s3 : DState} (h1 : Evolves s1 s2)
    (h2 : Evolves s2 s3) : Evolves s1 s3 := by
  refine ⟨Nat.le_trans h1.len h2.len, ?_, ?_, ?_, fun hw => h2.wf (h1.wf hw)⟩
  · intro i hi
    have hl := h1.len
    rw [h2.first_eq i (by omega), h1.first_eq i hi]
  · intro i hi
    have hl := h1.len
    rcases h2.decay i (by omega) with h | h
    · rcases h1.decay i hi with h' | h'
      · exact Or.inl (by rw [h, h'])
      · exact Or.inr (by rw [h, h'])
    · exact Or.inr h
  · intro a
    exact List.IsPrefix.trans (h1.predsGrow a) (h2.predsGrow a)

/-- A disabled edge stays disabled across an evolution. -/
theorem Evolves.noneK_stable {s s' : DState} (h : Evolves s s') {eid : Nat}
    (hlt : eid < s.edges.length)
    (hn : (s.edges.getD eid EdgeRec.default).otype = OrderType.noneK) :
    (s'.edges.getD eid EdgeRec.default).otype = OrderType.noneK := by
  rcases h.decay eid hlt with h1 | h1
  · rw [h1, hn]
  · exact h1

/-- Positions inside the original predecessor list are stable across an
evolution. -/
theorem Evolves.getD_preds {s s' : DState} (h : Evolves s s') {a j : Nat}
    (hj : j < (s.preds.getD a []).length) :
    (s'.preds.getD a []).getD j 0 = (s.preds.getD a []).getD j 0 := by
  obtain ⟨tail, heq⟩ := h.predsGrow a
  rw [← heq]
  exact getD_append_left _ _ _ _ hj

/-- A state differing only in the flag store evolves trivially. -/
theorem evolves_of_graphEq {s s' : DState} (he : s'.edges = s.edges)
    (hp : s'.preds = s.preds) : Evolves s s' := by
  refine ⟨by rw [he], fun i hi => by rw [he], fun i hi => Or.inl (by rw [he]),
    fun a => by rw [hp], ?_⟩
  intro hw a eid hm
  rw [hp] at hm
  rw [he]
  exact hw a eid hm

/-- Disabling an edge is an evolution. -/
theorem evolves_setEdgeNone (s : DState) (eid : Nat) :
    Evolves s (setEdgeNone s eid) := by
  refine ⟨?_, ?_, ?_, fun a => ?_, ?_⟩
  · simp [setEdgeNone]
  · intro i hi
    by_cases hie : eid = i
    · subst hie
      show ((s.edges.set eid _).getD eid EdgeRec.default).first = _
      rw [getD_set_self _ _ _ _ hi]
    · show ((s.edges.set eid _).getD i EdgeRec.default).first = _
      rw [getD_set_ne _ _ _ _ _ hie]
  · intro i hi
    by_cases hie : eid = i
    · subst hie
      refine Or.inr ?_
      show ((s.edges.set eid _).getD eid EdgeRec.default).otype = _
      rw [getD_set_self _ _ _ _ hi]
    · refine Or.inl ?_
      show ((s.edges.set eid _).getD i EdgeRec.default).otype = _
      rw [getD_set_ne _ _ _ _ _ hie]
  · exact List.prefix_refl _
  · intro hw a eid2 hm
    show eid2 < (s.edges.set eid _).length
    rw [List.length_set]
    exact hw a eid2 hm

/-- `order_actions` is an evolution: it either changes nothing or appends a
fresh edge. -/
theorem evolves_order_actions (env : Env) (f t : Nat) (ty : OrderType)
    (s : DState) : Evolves s (order_actions env f t ty s).2 := by
  simp only [order_actions]
  split
  · exact Evolves.refl s
  · refine ⟨?_, ?_, ?_, fun a => ?_, ?_⟩
    · simp
    · intro i hi
      show ((s.edges ++ [(⟨f, ty⟩ : EdgeRec)]).getD i EdgeRec.default).first = _
      simp [List.getD_eq_getElem?_getD, List.getElem?_append_left hi]
    · intro i hi
      refine Or.inl ?_
      show ((s.edges ++ [(⟨f, ty⟩ : EdgeRec)]).getD i EdgeRec.default).otype = _
      simp [List.getD_eq_getElem?_getD, List.getElem?_append_left hi]
    · by_cases hat : t < s.preds.length
      · by_cases haa : a = t
        · subst haa
          show s.preds.getD a [] <+:
            ((s.preds.set a ((s.preds.getD a []) ++ [s.edges.length])).getD a [])
          rw [getD_set_self _ _ _ _ hat]
          exact List.prefix_append _ _
        · show s.preds.getD a [] <+:
            ((s.preds.set t ((s.preds.getD t []) ++ [s.edges.length])).getD a [])
          rw [getD_set_ne _ _ _ _ _ (fun he => haa he.symm)]
      · show s.preds.getD a [] <+:
          ((s.preds.set t ((s.preds.getD t []) ++ [s.edges.length])).getD a [])
        rw [List.set_eq_of_length_le (by omega)]
    · intro hw a eid hm
      show eid < (s.edges ++ [(⟨f, ty⟩ : EdgeRec)]).length
      rw [List.length_append]
      by_cases hat : t < s.preds.length
      · by_cases haa : a = t
        · subst haa
          rw [show ((s.preds.set a ((s.preds.getD a []) ++ [s.edges.length])) :
              List (List Nat)).getD a [] = (s.preds.getD a []) ++ [s.edges.length]
              from getD_set_self _ _ _ _ hat] at hm
          rcases List.mem_append.mp hm with hm1 | hm1
          · have := hw a eid hm1
            simp only [List.length_cons, List.length_nil]
            omega
          · simp only [List.mem_singleton] at hm1
            subst hm1
            simp only [List.length_cons, List.length_nil]
            omega
        · rw [show ((s.preds.set t ((s.preds.getD t []) ++ [s.edges.length])) :
              List (List Nat)).getD a [] = s.preds.getD a []
              from getD_set_ne _ _ _ _ _ (fun he => haa he.symm)] at hm
          have := hw a eid hm
          simp only [List.length_cons, List.length_nil]
          omega
      · rw [show ((s.preds.set t ((s.preds.getD t []) ++ [s.edges.length])) :
            List (List Nat)).getD a [] = s.preds.getD a []
            from by rw [List.set_eq_of_length_le (by omega)]] at hm
        have := hw a eid hm
        simp only [List.length_cons, List.length_nil]
        omega

/-- A state transformer that never touches the edge pool or the
predecessor lists. -/
def ShapeKeeps (F : GraphChange × DState → GraphChange × DState) : Prop :=
  ∀ cs, (F cs).2.edges = cs.2.edges ∧ (F cs).2.preds = cs.2.preds

/-- Composition of shape-keeping transformers. -/
theorem ShapeKeeps.comp {F G : GraphChange × DState → GraphChange × DState}
    (hF : ShapeKeeps F) (hG : ShapeKeeps G) :
    ShapeKeeps (fun cs => G (F cs)) := by
  intro cs
  exact ⟨by rw [(hG (F cs)).1, (hF cs).1], by rw [(hG (F cs)).2, (hF cs).2]⟩

/-- Every rule except the probe rule keeps the graph shape (they mutate
only the flag store). -/
theorem shape_blocks (env : Env) (f t : Nat) (node : Option Nat)
    (ff tf : ActionFlags) (ty : OrderType) :
    ShapeKeeps (impliesThenBlock env f t node ff ty)
    ∧ ShapeKeeps (restartBlock env f t node ff ty)
    ∧ ShapeKeeps (impliesFirstBlock env f t node ff ty)
    ∧ ShapeKeeps (promotedImpliesFirstBlock env f t node ff ty)
    ∧ ShapeKeeps (oneOrMoreBlock env f t node ff ty)
    ∧ ShapeKeeps (runnableLeftBlock env f t node ff ty)
    ∧ ShapeKeeps (migratableBlock env f t node ff ty)
    ∧ ShapeKeeps (pseudoLeftBlock env f t node ff ty)
    ∧ ShapeKeeps (optionalOrderBlock env f t node ff ty)
    ∧ ShapeKeeps (asymmetricalBlock env f t node ff ty)
    ∧ ShapeKeeps (impliesThenPrintedBlock f t ff ty)
    ∧ ShapeKeeps (impliesFirstPrintedBlock f t tf ty)
    ∧ ShapeKeeps (blockedStopBlock env f t ty) := by
  refine ⟨?_, ?_, ?_, ?_, ?_, ?_, ?_, ?_, ?_, ?_, ?_, ?_, ?_⟩ <;>
    intro cs <;>
    simp only [impliesThenBlock, restartBlock, impliesFirstBlock,
      promotedImpliesFirstBlock, oneOrMoreBlock, runnableLeftBlock,
      migratableBlock, pseudoLeftBlock, optionalOrderBlock,
      asymmetricalBlock, impliesThenPrintedBlock, impliesFirstPrintedBlock,
      blockedStopBlock, applyHook] <;>
    (repeat' split) <;> simp

/-- The pre-probe rules keep the graph shape. -/
theorem shape_evalPre (env : Env) (f t : Nat) (node : Option Nat)
    (ff : ActionFlags) (ty : OrderType) (s0 : DState) :
    (evalPre env f t node ff ty s0).2.edges = s0.edges
    ∧ (evalPre env f t node ff ty s0).2.preds = s0.preds := by
  obtain ⟨h1, h2, h3, h4, h5, _⟩ := shape_blocks env f t node ff ff ty
  unfold evalPre
  constructor
  · rw [(h5 _).1, (h4 _).1, (h3 _).1, (h2 _).1, (h1 _).1]
  · rw [(h5 _).2, (h4 _).2, (h3 _).2, (h2 _).2, (h1 _).2]

/-- The post-probe rules keep the graph shape. -/
theorem shape_evalPost (env : Env) (f t : Nat) (node : Option Nat)
    (ff tf : ActionFlags) (ty : OrderType) (cs : GraphChange × DState) :
    (evalPost env f t node ff tf ty cs).2.edges = cs.2.edges
    ∧ (evalPost env f t node ff tf ty cs).2.preds = cs.2.preds := by
  obtain ⟨_, _, _, _, _, h6, h7, h8, h9, h10, h11, h12, h13⟩ :=
    shape_blocks env f t node ff tf ty
  unfold evalPost
  constructor
  · rw [(h13 _).1, (h12 _).1, (h11 _).1, (h10 _).1, (h9 _).1, (h8 _).1,
      (h7 _).1, (h6 _).1]
  · rw [(h13 _).2, (h12 _).2, (h11 _).2, (h10 _).2, (h9 _).2, (h8 _).2,
      (h7 _).2, (h6 _).2]

/-- The probe rule is an evolution of the state: it disables the edge, or
keeps the graph shape. -/
theorem evolves_probeBlock (env : Env) (f t : Nat) (node : Option Nat)
    (ff : ActionFlags) (eid : Nat) (ty : OrderType)
    (cs : GraphChange × DState) :
    Evolves cs.2 (probeBlock env f t node ff eid ty cs).2.2 := by
  unfold probeBlock
  split
  · split
    · exact evolves_setEdgeNone _ _
    · exact evolves_of_graphEq (by simp [applyHook]) (by simp [applyHook])
  · exact Evolves.refl _

/-- The whole edge evaluator is an evolution of the state. -/
theorem evolves_graph_update_action (env : Env) (f t : Nat)
    (node : Option Nat) (ff tf : ActionFlags) (eid : Nat) (s : DState) :
    Evolves s (graph_update_action env f t node ff tf eid s).2 := by
  show Evolves s (graph_update_action_core env f t node ff tf eid
    ((s.edges.getD eid EdgeRec.default).otype) s).2
  unfold graph_update_action_core
  have hA : Evolves s (evalPre env f t
      (onNodeRewrite env f ((s.edges.getD eid EdgeRec.default).otype) node).2
      ff
      (onNodeRewrite env f ((s.edges.getD eid EdgeRec.default).otype) node).1
      s).2 :=
    evolves_of_graphEq (shape_evalPre _ _ _ _ _ _ _).1
      (shape_evalPre _ _ _ _ _ _ _).2
  have hB := evolves_probeBlock env f t
    (onNodeRewrite env f ((s.edges.getD eid EdgeRec.default).otype) node).2
    ff eid
    (onNodeRewrite env f ((s.edges.getD eid EdgeRec.default).otype) node).1
    (evalPre env f t
      (onNodeRewrite env f ((s.edges.getD eid EdgeRec.default).otype) node).2
      ff
      (onNodeRewrite env f ((s.edges.getD eid EdgeRec.default).otype) node).1
      s)
  exact Evolves.trans (Evolves.trans hA hB)
    (evolves_of_graphEq (shape_evalPost _ _ _ _ _ _ _ _).1
      (shape_evalPost _ _ _ _ _ _ _ _).2)

/-- The cancellation step keeps the graph shape. -/
theorem shape_cancelStep (env : Env) (t fRaw : Nat) (ty : OrderType)
    (s : DState) :
    (cancelStep env t fRaw ty s).edges = s.edges
    ∧ (cancelStep env t fRaw ty s).preds = s.preds := by
  unfold cancelStep
  repeat' split
  all_goals simp

/-- One driver-loop iteration is an evolution of the state. -/
theorem evolves_iter_tail (s0 : DState) (eid : Nat)
    (cs : GraphChange × DState) (h : Evolves s0 cs.2) (first : Nat) :
    Evolves s0 (if cs.1.disable then
      (⟨{ cs.1 with disable := false },
        { cs.2 with
          edges := cs.2.edges.set eid
            { cs.2.edges.getD eid EdgeRec.default with
              otype := OrderType.noneK } },
        first, false⟩ : IterOut)
    else (⟨cs.1, cs.2, first, false⟩ : IterOut)).st := by
  split
  · exact Evolves.trans h (evolves_setEdgeNone cs.2 eid)
  · exact h

theorem evolves_edge_iter (env : Env) (t : Nat) (ch : GraphChange) (i : Nat)
    (s : DState) : Evolves s (edge_iter env t ch i s).st := by
  simp only [edge_iter]
  split
  · exact evolves_setEdgeNone _ _
  · refine evolves_iter_tail _ _ _ ?_ _
    repeat' split
    all_goals
      first
      | exact Evolves.trans
          (evolves_of_graphEq (shape_cancelStep _ _ _ _ _).1
            (shape_cancelStep _ _ _ _ _).2)
          (evolves_graph_update_action _ _ _ _ _ _ _ _)
      | exact Evolves.trans
          (evolves_of_graphEq (shape_cancelStep _ _ _ _ _).1
            (shape_cancelStep _ _ _ _ _).2)
          (evolves_order_actions _ _ _ _ _)

/-- Every terminating run of the driver is an evolution of the starting
state: the edge pool only grows, surviving edges keep their first endpoint,
edge kinds only decay to `NONE`, and predecessor lists only grow. -/
theorem drive_evolves (env : Env) :
    ∀ fuel mode s r, drive env fuel mode s = some r → Evolves s r.2 := by
  intro fuel
  induction fuel with
  | zero =>
    intro mode s r h
    simp [drive] at h
  | succ fuel ih =>
    intro mode s r h
    cases mode with
    | upd t =>
      rw [drive] at h
      try dsimp only at h
      have hs1 : Evolves s (if (s.fl.af t).requiresAny = true then
          { s with fl := requiresAnyPreamble t s.fl } else s) := by
        split
        · exact evolves_of_graphEq rfl rfl
        · exact Evolves.refl s
      cases he : drive env fuel (DriveMode.edg t 0 GraphChange.noneC)
          (if (s.fl.af t).requiresAny = true then
            { s with fl := requiresAnyPreamble t s.fl } else s) with
      | none => rw [he] at h; exact absurd h (by simp)
      | some p =>
        obtain ⟨ch1, s2⟩ := p
        rw [he] at h
        try dsimp only at h
        have h2 : Evolves s s2 := Evolves.trans hs1 (ih _ _ _ he)
        by_cases hC : ((if (s2.fl.af t).requiresAny = true then
            (if s.fl.af t = s2.fl.af t then { ch1 with updatedThen := false }
             else { ch1 with updatedThen := true })
          else ch1) : GraphChange).updatedThen = true
        · rw [if_pos hC] at h
          simp only [blockColocatedStarts, ite_self] at h
          cases hu : drive env fuel (DriveMode.upd t) s2 with
          | none => rw [hu] at h; exact absurd h (by simp)
          | some p3 =>
            rw [hu] at h
            try dsimp only at h
            exact Evolves.trans (Evolves.trans h2 (ih _ _ _ hu)) (ih _ _ _ h)
        · rw [if_neg hC] at h
          injection h with h
          subst h
          exact h2
    | aft a i =>
      rw [drive] at h
      try dsimp only at h
      by_cases hlt : i < (s.afters.getD a []).length
      · rw [if_pos hlt] at h
        cases hu : drive env fuel
            (DriveMode.upd ((s.afters.getD a []).getD i 0)) s with
        | none => rw [hu] at h; exact absurd h (by simp)
        | some p2 =>
          rw [hu] at h
          try dsimp only at h
          exact Evolves.trans (ih _ _ _ hu) (ih _ _ _ h)
      · rw [if_neg hlt] at h
        injection h with h
        subst h
        exact Evolves.refl s
    | edg t i ch =>
      rw [drive] at h
      try dsimp only at h
      by_cases hlt : i < (s.preds.getD t []).length
      · rw [if_pos hlt] at h
        by_cases hf : (edge_iter env t ch i s).filtered = true
        · rw [if_pos hf] at h
          exact Evolves.trans (evolves_edge_iter env t ch i s) (ih _ _ _ h)
        · rw [if_neg hf] at h
          by_cases hc1 : (edge_iter env t ch i s).changed.updatedFirst = true
          · rw [if_pos hc1] at h
            cases ha : drive env fuel
                (DriveMode.aft (edge_iter env t ch i s).firstId 0)
                (edge_iter env t ch i s).st with
            | none => rw [ha] at h; exact absurd h (by simp)
            | some p2 =>
              rw [ha] at h
              try dsimp only at h
              cases hu : drive env fuel
                  (DriveMode.upd (edge_iter env t ch i s).firstId) p2.2 with
              | none => rw [hu] at h; exact absurd h (by simp)
              | some p3 =>
                rw [hu] at h
                try dsimp only at h
                exact Evolves.trans (Evolves.trans (Evolves.trans
                  (evolves_edge_iter env t ch i s) (ih _ _ _ ha))
                  (ih _ _ _ hu)) (ih _ _ _ h)
          · rw [if_neg hc1] at h
            exact Evolves.trans (evolves_edge_iter env t ch i s) (ih _ _ _ h)
      · rw [if_neg hlt] at h
        injection h with h
        subst h
        exact Evolves.refl s

/-- The same-node filter condition of the driver loop, for predecessor edge
`eid` of action `t`: the edge carries `SAME_NODE`, both endpoints have
assigned nodes (after the group-start fix-up), and the nodes differ. -/
def sameNodeConflict (env : Env) (s : DState) (eid t : Nat) : Bool :=
  let e := s.edges.getD eid EdgeRec.default
  let fNode := fixNode env e.first
  let tNode := fixNode env t
  e.otype.sameNode && fNode.isSome && tNode.isSome && fNode ≠ tNode

/-- A same-node conflict survives an evolution unless the edge was
disabled: the endpoints are immutable and the kind can only decay. -/
theorem sameNodeConflict_evolves (env : Env) (t : Nat) {s s' : DState}
    {eid : Nat} (h : Evolves s s') (hlt : eid < s.edges.length)
    (hc : sameNodeConflict env s eid t = true) :
    sameNodeConflict env s' eid t = true
    ∨ (s'.edges.getD eid EdgeRec.default).otype = OrderType.noneK := by
  rcases h.decay eid hlt with hd | hd
  · left
    have hf := h.first_eq eid hlt
    simp only [sameNodeConflict] at hc ⊢
    rw [hd, hf]
    exact hc
  · exact Or.inr hd

/-- On a conflicted edge the loop iteration only disables the edge: the
change bits pass through untouched, the state is the input with that one
edge kind overwritten by `NONE`, and the `continue` flag is set, so no
propagation happens over the edge. -/
theorem edge_iter_same_node (env : Env) (t : Nat) (ch : GraphChange)
    (i : Nat) (s : DState)
    (hconf : sameNodeConflict env s ((s.preds.getD t []).getD i 0) t
      = true) :
    edge_iter env t ch i s =
      ⟨ch, setEdgeNone s ((s.preds.getD t []).getD i 0),
       (s.edges.getD ((s.preds.getD t []).getD i 0) EdgeRec.default).first,
       true⟩ := by
  simp only [sameNodeConflict] at hconf
  simp only [edge_iter, setEdgeNone]
  rw [if_pos hconf]

/-- Through the predecessor-edge loop from index `i`, every edge at
position `j ≥ i` that is conflicted (or already disabled) ends with kind
`NONE`. -/
theorem loop_edges_same_node (env : Env) (t : Nat) :
    ∀ fuel i ch s r, drive env fuel (DriveMode.edg t i ch) s = some r →
      PredsWFP s →
      ∀ j, i ≤ j → j < (s.preds.getD t []).length →
      (sameNodeConflict env s ((s.preds.getD t []).getD j 0) t = true
        ∨ (s.edges.getD ((s.preds.getD t []).getD j 0)
            EdgeRec.default).otype = OrderType.noneK) →
      (r.2.edges.getD ((s.preds.getD t []).getD j 0)
          EdgeRec.default).otype = OrderType.noneK := by
  intro fuel
  induction fuel with
  | zero =>
    intro i ch s r h
    simp [drive] at h
  | succ fuel ih =>
    intro i ch s r h hwf j hij hj hcase
    have hmem : (s.preds.getD t []).getD j 0 ∈ s.preds.getD t [] := by
      rw [List.getD_eq_getElem _ _ hj]
      exact List.getElem_mem hj
    have heid := hwf t _ hmem
    rcases hcase with hconf | hnone
    · rcases Nat.eq_or_lt_of_le hij with heq | hgt
      · subst heq
        rw [drive] at h
        try dsimp only at h
        rw [if_pos hj] at h
        by_cases hf : (edge_iter env t ch i s).filtered = true
        · rw [if_pos hf] at h
          have hst : (edge_iter env t ch i s).st
              = setEdgeNone s ((s.preds.getD t []).getD i 0) := by
            rw [edge_iter_same_node env t ch i s hconf]
          rw [hst] at h
          have hev2 := drive_evolves env _ _ _ _ h
          refine hev2.noneK_stable ?_ ?_
          · simpa [setEdgeNone] using heid
          · show (((s.edges.set _ _)).getD _ EdgeRec.default).otype = _
            rw [getD_set_self _ _ _ _ heid]
        · exact absurd (by rw [edge_iter_same_node env t ch i s hconf]) hf
      · have hlt : i < (s.preds.getD t []).length := Nat.lt_trans hgt hj
        have hcont : ∀ ch2 s2, Evolves s s2 →
            drive env fuel (DriveMode.edg t (i + 1) ch2) s2 = some r →
            (r.2.edges.getD ((s.preds.getD t []).getD j 0)
                EdgeRec.default).otype = OrderType.noneK := by
          intro ch2 s2 hev2 h2
          have hpj : j < (s2.preds.getD t []).length :=
            Nat.lt_of_lt_of_le hj (hev2.predsGrow t).length_le
          have hentry : (s2.preds.getD t []).getD j 0
              = (s.preds.getD t []).getD j 0 := hev2.getD_preds hj
          have hdis : sameNodeConflict env s2
                ((s2.preds.getD t []).getD j 0) t = true
              ∨ (s2.edges.getD ((s2.preds.getD t []).getD j 0)
                  EdgeRec.default).otype = OrderType.noneK := by
            rw [hentry]
            exact sameNodeConflict_evolves env t hev2 heid hconf
          have hfin := ih (i + 1) ch2 s2 r h2 (hev2.wf hwf) j
            (by omega) hpj hdis
          rwa [hentry] at hfin
        rw [drive] at h
        try dsimp only at h
        rw [if_pos hlt] at h
        by_cases hf : (edge_iter env t ch i s).filtered = true
        · rw [if_pos hf] at h
          exact hcont _ _ (evolves_edge_iter env t ch i s) h
        · rw [if_neg hf] at h
          by_cases hc1 : (edge_iter env t ch i s).changed.updatedFirst
              = true
          · rw [if_pos hc1] at h
            cases ha : drive env fuel
                (DriveMode.aft (edge_iter env t ch i s).firstId 0)
                (edge_iter env t ch i s).st with
            | none => rw [ha] at h; exact absurd h (by simp)
            | some p2 =>
              rw [ha] at h
              try dsimp only at h
              cases hu : drive env fuel
                  (DriveMode.upd (edge_iter env t ch i s).firstId) p2.2 with
              | none => rw [hu] at h; exact absurd h (by simp)
              | some p3 =>
                rw [hu] at h
                try dsimp only at h
                exact hcont _ _ (Evolves.trans (Evolves.trans
                  (evolves_edge_iter env t ch i s)
                  (drive_evolves env _ _ _ _ ha))
                  (drive_evolves env _ _ _ _ hu)) h
          · rw [if_neg hc1] at h
            exact hcont _ _ (evolves_edge_iter env t ch i s) h
    · exact (drive_evolves env _ _ s r h).noneK_stable heid hnone

/-- Across a full `update_action` pass, an initially conflicted predecessor
edge of `then` ends with kind `NONE`. -/
theorem update_action_same_node (env : Env) (fuel t : Nat) (s s' : DState)
    (hwf : PredsWFP s)
    (hupd : update_action env fuel t s = some s')
    (j : Nat) (hj : j < (s.preds.getD t []).length)
    (hconf : sameNodeConflict env s ((s.preds.getD t []).getD j 0) t
      = true) :
    (s'.edges.getD ((s.preds.getD t []).getD j 0) EdgeRec.default).otype
      = OrderType.noneK := by
  unfold update_action at hupd
  cases hd : drive env fuel (DriveMode.upd t) s with
  | none => rw [hd] at hupd; exact absurd hupd (by simp)
  | some p =>
    rw [hd] at hupd
    simp only [Option.map_some', Option.some.injEq] at hupd
    subst hupd
    cases fuel with
    | zero => simp [drive] at hd
    | succ fuel =>
      rw [drive] at hd
      try dsimp only at hd
      have hs1e : ((if (s.fl.af t).requiresAny = true then
          { s with fl := requiresAnyPreamble t s.fl } else s) : DState).edges
            = s.edges := by
        split <;> rfl
      have hs1p : ((if (s.fl.af t).requiresAny = true then
          { s with fl := requiresAnyPreamble t s.fl } else s) : DState).preds
            = s.preds := by
        split <;> rfl
      cases he : drive env fuel (DriveMode.edg t 0 GraphChange.noneC)
          (if (s.fl.af t).requiresAny = true then
            { s with fl := requiresAnyPreamble t s.fl } else s) with
      | none => rw [he] at hd; exact absurd hd (by simp)
      | some q =>
        obtain ⟨ch1, s2⟩ := q
        rw [he] at hd
        try dsimp only at hd
        have hwf1 : PredsWFP (if (s.fl.af t).requiresAny = true then
            { s with fl := requiresAnyPreamble t s.fl } else s) := by
          intro a eid hm
          rw [hs1e]
          rw [hs1p] at hm
          exact hwf a eid hm
        have hj1 : j < (((if (s.fl.af t).requiresAny = true then
            { s with fl := requiresAnyPreamble t s.fl } else s) :
              DState).preds.getD t []).length := by
          rw [hs1p]; exact hj
        have hconf1 : sameNodeConflict env
            (if (s.fl.af t).requiresAny = true then
              { s with fl := requiresAnyPreamble t s.fl } else s)
            ((((if (s.fl.af t).requiresAny = true then
              { s with fl := requiresAnyPreamble t s.fl } else s) :
                DState).preds.getD t []).getD j 0) t = true := by
          simp only [sameNodeConflict] at hconf ⊢
          rw [hs1e, hs1p]
          exact hconf
        have hmid := loop_edges_same_node env t fuel 0 GraphChange.noneC _
          (ch1, s2) he hwf1 j (Nat.zero_le j) hj1 (Or.inl hconf1)
        rw [hs1p] at hmid
        have hmem : (s.preds.getD t []).getD j 0 ∈ s.preds.getD t [] := by
          rw [List.getD_eq_getElem _ _ hj]
          exact List.getElem_mem hj
        have heid := hwf t _ hmem
        have hev1 := drive_evolves env _ _ _ _ he
        have hlen2 : (s.preds.getD t []).getD j 0 < s2.edges.length := by
          have h1 := hev1.len
          rw [hs1e] at h1
          have h1b : (((ch1, s2) : GraphChange × DState)).2.edges.length
              = s2.edges.length := rfl
          rw [h1b] at h1
          omega
        by_cases hC : ((if (s2.fl.af t).requiresAny = true then
            (if s.fl.af t = s2.fl.af t then { ch1 with updatedThen := false }
             else { ch1 with updatedThen := true })
          else ch1) : GraphChange).updatedThen = true
        · rw [if_pos hC] at hd
          simp only [blockColocatedStarts, ite_self] at hd
          cases hu : drive env fuel (DriveMode.upd t) s2 with
          | none => rw [hu] at hd; exact absurd hd (by simp)
          | some p3 =>
            rw [hu] at hd
            try dsimp only at hd
            have hev2 := Evolves.trans (drive_evolves env _ _ _ _ hu)
              (drive_evolves env _ _ _ _ hd)
            exact hev2.noneK_stable hlen2 hmid
        · rw [if_neg hC] at hd
          injection hd with hd
          subst hd
          exact hmid

/-- Concrete environment for the C4 witness: two resource-less actions
assigned to distinct nodes. -/
def envW4 : Env :=
  { acts := [⟨Uuid.op "a" "start" 0, "start", none, some 0⟩,
             ⟨Uuid.op "b" "start" 0, "start", none, some 1⟩],
    rscs := [], cb := cbZero, hook := hookZero }

/-- Concrete state for the C4 witness: one `SAME_NODE` edge between the
two actions. -/
def sW4 : DState :=
  { fl := { aflags := [{ ActionFlags.zero with runnable := true },
                       { ActionFlags.zero with runnable := true }],
            runBefore := [0, 0], reqBefore := [0, 0], rflags := [] },
    edges := [⟨0, OrderType.sameNodeOnly⟩],
    preds := [[], [0]], afters := [[1], []] }

/-- The state the C4 witness pass ends in. -/
def sW4res : DState :=
  (update_action envW4 10 1 sW4).getD sW4

/-- C4: for a predecessor edge carrying `SAME_NODE` whose endpoints both
have assigned nodes (a group's reported location substituted for a group
start action) and those nodes differ, the loop iteration only overwrites
the edge's kind with `NONE` — the flags, the change bits and the rest of
the graph are untouched and the iteration continues without propagation —
and across a terminating `update_action` pass the edge ends with kind
`NONE`. -/
theorem C4_same_node_filter (env : Env) (fuel t j : Nat) (ch : GraphChange)
    (s s' : DState)
    (hwf : PredsWFP s)
    (hupd : update_action env fuel t s = some s')
    (hj : j < (s.preds.getD t []).length)
    (hconf : sameNodeConflict env s ((s.preds.getD t []).getD j 0) t
      = true) :
    edge_iter env t ch j s =
      ⟨ch, setEdgeNone s ((s.preds.getD t []).getD j 0),
       (s.edges.getD ((s.preds.getD t []).getD j 0) EdgeRec.default).first,
       true⟩
    ∧ (s'.edges.getD ((s.preds.getD t []).getD j 0) EdgeRec.default).otype
        = OrderType.noneK :=
  ⟨edge_iter_same_node env t ch j s hconf,
   update_action_same_node env fuel t s s' hwf hupd j hj hconf⟩

/-- Witness for C4: the concrete two-node scenario; the pass terminates,
the iteration disables the edge in place, and the edge ends the pass with
kind `NONE`. -/
theorem C4_witness :
    update_action envW4 10 1 sW4 = some sW4res
    ∧ (edge_iter envW4 1 GraphChange.noneC 0 sW4 =
        ⟨GraphChange.noneC, setEdgeNone sW4 ((sW4.preds.getD 1 []).getD 0 0),
         (sW4.edges.getD ((sW4.preds.getD 1 []).getD 0 0)
            EdgeRec.default).first, true⟩
       ∧ (sW4res.edges.getD ((sW4.preds.getD 1 []).getD 0 0)
            EdgeRec.default).otype = OrderType.noneK) :=
  ⟨by decide,
   C4_same_node_filter envW4 10 1 0 GraphChange.noneC sW4 sW4res
     (predsWF_spec sW4 (by decide)) (by decide) (by decide) (by decide)⟩
